import Mathlib

/-!
# DynoGraph benchmark driver for STINGER (`src/benchmarks/src/dynograph.cpp`)

A shallow embedding of the driver.  The driver is glue code: it parses the
command line, looks the benchmark up in a static registry, and then replays
edge batches into a graph store, dispatching an analytic kernel after each
batch.  The graph store, the kernels, the dataset loader, the allocator and
the timing hooks are external libraries.  They are represented by

* an abstract world state `σ` (graph store and heap) and an abstract dataset
  handle `δ`,
* a record `Env σ δ` of functions giving the effect and the return value of
  every external call,
* a trace of `Event`s, one per external call, in program order.

Every driver function is a computation `M σ α`: it maps a world to an
`Outcome` holding the result (`ok`, or `exit` when `dynograph_error`
terminates the process), the new world and the calls it made.

Conventions of the embedding:

* `argv` is a list of strings and `argc` its length; C strings compare with
  `strcmp` as Lean strings do with `=`.
* An external call returns to the driver; the only exit is `dynograph_error`.
* Integers are mathematical.  The conversions the driver makes explicitly
  (`uint64_t num_vertices`, the `size_t` arguments of `xcalloc`) are `toU64`
  and `wrapI64`; offsets `s * max_nv` into the buffer are exact products.
* The `omp parallel for` loops are run in index order.
* `run_benchmark` is recursive through its `"all"` branch; the model unrolls
  the recursion to depth two and `run_benchmark_unfold` shows that this is a
  solution of the recursive equation of the source.
-/

namespace Dynograph

/-! ## Machine integers -/

/-- Reinterpretation of an integer as a two's complement `int64_t`. -/
def wrapI64 (x : Int) : Int := (x + 2 ^ 63) % 2 ^ 64 - 2 ^ 63

/-- Conversion of an integer to `uint64_t` / `size_t`. -/
def toU64 (x : Int) : Int := x % 2 ^ 64

/-- Saturation to the `int64_t` range, as `strtoll` does on overflow. -/
def clampI64 (x : Int) : Int := max (-(2 : Int) ^ 63) (min x ((2 : Int) ^ 63 - 1))

/-! ## `atoll` (C library) -/

/-- The C `isspace` predicate in the "C" locale. -/
def isspace (c : Char) : Bool :=
  c = ' ' || c = Char.ofNat 9 || c = Char.ofNat 10 || c = Char.ofNat 11 ||
    c = Char.ofNat 12 || c = Char.ofNat 13

/-- Value of the longest prefix of decimal digits, accumulated onto `acc`. -/
def digitsValue : List Char → Int → Int
  | [], acc => acc
  | c :: cs, acc =>
    if c.isDigit then digitsValue cs (acc * 10 + ((c.toNat : Int) - 48)) else acc

/-- The C library `atoll`, after the C standard (`strtoll` in base 10): skip
leading white space, read an optional sign and the longest run of decimal
digits, ignore whatever follows; the result is `0` when there is no digit.
Out-of-range values saturate as in `strtoll`. -/
def atoll (s : String) : Int :=
  match s.toList.dropWhile isspace with
  | '-' :: rest => clampI64 (-(digitsValue rest 0))
  | '+' :: rest => clampI64 (digitsValue rest 0)
  | cs => clampI64 (digitsValue cs 0)

/-! ## Data passed to the collaborators -/

/-- One edge of the input log (`struct dynograph_edge`). -/
structure dynograph_edge where
  src : Int
  dst : Int
  weight : Int
  timestamp : Int
deriving DecidableEq, Repr, Inhabited

/-- One batch (`struct dynograph_edge_batch`): the array `edges` together with
its length `num_edges` is a list, `directed` is the C flag. -/
structure dynograph_edge_batch where
  edges : List dynograph_edge
  directed : Int
deriving DecidableEq, Repr

/-- The field `num_edges` of a batch. -/
def dynograph_edge_batch.num_edges (batch : dynograph_edge_batch) : Int :=
  batch.edges.length

/-- The fields of `struct stinger_fragmentation_t` that the driver prints. -/
structure stinger_fragmentation_t where
  num_edges : Int
  num_empty_edges : Int
  num_fragmented_blocks : Int
  edge_blocks_in_use : Int
  num_empty_blocks : Int
deriving DecidableEq, Repr

/-- An argument of a `printf`-style message. -/
inductive FmtArg
  | str (s : String)
  | int (i : Int)
deriving DecidableEq, Repr

/-- A pointer into an allocation: `base` is the pointer returned by the
allocator, `index` the offset in 8-byte elements (`int64_t` or `double`). -/
structure Ptr where
  base : Nat
  index : Int
deriving DecidableEq, Repr

/-- A decimal floating point literal `mantissa × 10 ^ exponent`. -/
structure Decimal where
  mantissa : Int
  exponent : Int
deriving DecidableEq, Repr

/-- A call of one of the seven analytic kernels, with its arguments in the
order of the C call. -/
inductive KernelCall
  | parallel_breadth_first_search (S : Nat) (nv source : Int)
      (marks queue Qhead level : Ptr) (modified_after : Int)
  | direction_optimizing_parallel_breadth_first_search (S : Nat) (nv source : Int)
      (marks queue Qhead level : Ptr) (modified_after : Int)
  | sample_search (S : Nat) (nv num_samples : Int) (bc found_count : Ptr)
      (modified_after : Int)
  | count_all_triangles (S : Nat) (num_triangles : Ptr) (modified_after : Int)
  | parallel_shiloach_vishkin_components (S : Nat) (nv : Int) (component_map : Ptr)
      (modified_after : Int)
  | kcore_find (S : Nat) (labels counts : Ptr) (nv k : Int) (modified_after : Int)
  | page_rank_directed (S : Nat) (nv : Int) (pagerank_scores pagerank_scores_tmp : Ptr)
      (epsilon dampingfactor : Decimal) (maxiter : Int) (modified_after : Int)
deriving DecidableEq, Repr

/-- One external call made by the driver.  `ret` is the value the call
returned, recorded where the driver uses it. -/
inductive Event
  | dynograph_message (fmt : String) (args : List FmtArg)
  | dynograph_error (fmt : String) (args : List FmtArg)
  | dynograph_load_dataset (path : String) (num_batches : Int)
  | dynograph_get_batch (i : Int)
  | dynograph_get_timestamp_for_window (i window_size : Int)
  | dynograph_free_dataset
  | stinger_new (ret : Nat)
  | stinger_max_nv (S : Nat) (ret : Int)
  | stinger_max_active_vertex (S : Nat) (ret : Int)
  | stinger_insert_edge (S : Nat) (type src dst weight timestamp : Int)
  | stinger_insert_edge_pair (S : Nat) (type src dst weight timestamp : Int)
  | stinger_fragmentation (S : Nat) (nv : Int)
  | stinger_free (S : Nat)
  | xcalloc (nmemb size : Int) (ret : Nat)
  | xmalloc (size : Int) (ret : Nat)
  | free (p : Nat)
  | hooks_region_begin (trial : Int)
  | hooks_region_end (trial : Int)
  | kernel (call : KernelCall) (ret : Int)
  | printf (fmt : String) (args : List Int)
deriving DecidableEq, Repr

/-! ## The external collaborators -/

/-- The external libraries.  `σ` is the state of the graph store and the
heap, `δ` a loaded dataset.  Calls that only read (`stinger_max_nv`,
`stinger_max_active_vertex`, `stinger_fragmentation`, the edge iteration
macro, the dataset accessors) are functions of the world; calls that write
return the new world. -/
structure Env (σ δ : Type) where
  dynograph_load_dataset : String → Int → δ
  num_batches : δ → Int
  dynograph_get_batch : δ → Int → dynograph_edge_batch
  dynograph_get_timestamp_for_window : δ → Int → Int → Int
  stinger_new : σ → Nat × σ
  stinger_max_nv : σ → Nat → Int
  stinger_max_active_vertex : σ → Nat → Int
  stinger_insert_edge : σ → Nat → Int → Int → Int → Int → Int → σ
  stinger_insert_edge_pair : σ → Nat → Int → Int → Int → Int → Int → σ
  stinger_fragmentation : σ → Nat → Int → stinger_fragmentation_t
  out_edges_modified_after : σ → Nat → Int → Int → Int
  stinger_free : σ → Nat → σ
  xcalloc : σ → Int → Int → Nat × σ
  xmalloc : σ → Int → Nat × σ
  free : σ → Nat → σ
  kernel : σ → KernelCall → Int × σ
  sizeof_stinger_fragmentation_t : Int

/-! ## Computations -/

/-- How a computation ended: it returned `a`, the process exited through
`dynograph_error`, or the bound on the recursion depth of the model was
reached. -/
inductive Res (α : Type)
  | ok (a : α)
  | exit
  | outOfFuel
deriving DecidableEq, Repr

/-- Result, final world and calls made. -/
structure Outcome (σ α : Type) where
  res : Res α
  world : σ
  trace : List Event

/-- A driver computation. -/
def M (σ α : Type) : Type := σ → Outcome σ α

/-- Run a computation from a world. -/
def M.run {σ α : Type} (m : M σ α) (w : σ) : Outcome σ α := m w

/-- Return a value without any call. -/
def M.pure {σ α : Type} (a : α) : M σ α := fun w => ⟨.ok a, w, []⟩

/-- Sequencing: the second computation runs only if the first returned. -/
def M.bind {σ α β : Type} (m : M σ α) (f : α → M σ β) : M σ β := fun w =>
  match m w with
  | ⟨.ok a, w1, t1⟩ =>
    match f a w1 with
    | ⟨r, w2, t2⟩ => ⟨r, w2, t1 ++ t2⟩
  | ⟨.exit, w1, t1⟩ => ⟨.exit, w1, t1⟩
  | ⟨.outOfFuel, w1, t1⟩ => ⟨.outOfFuel, w1, t1⟩

instance {σ : Type} : Monad (M σ) where
  pure := M.pure
  bind := M.bind

/-- A call that reads the world and returns `f w`. -/
def query {σ α : Type} (f : σ → α) (e : α → Event) : M σ α :=
  fun w => ⟨.ok (f w), w, [e (f w)]⟩

/-- A call that returns a value and changes the world. -/
def call {σ α : Type} (f : σ → α × σ) (e : α → Event) : M σ α :=
  fun w => ⟨.ok (f w).1, (f w).2, [e (f w).1]⟩

/-- A call that changes the world and returns nothing the driver uses. -/
def effect {σ : Type} (f : σ → σ) (e : Event) : M σ Unit :=
  fun w => ⟨.ok (), f w, [e]⟩

/-- A call that leaves the graph store and the heap alone. -/
def emit {σ : Type} (e : Event) : M σ Unit :=
  fun w => ⟨.ok (), w, [e]⟩

/-- Reading the world without a call (loop bodies expanded from macros). -/
def getWorld {σ : Type} : M σ σ := fun w => ⟨.ok w, w, []⟩

/-- The process ran out of the recursion bound of the model. -/
def outOfFuel {σ α : Type} : M σ α := fun w => ⟨.outOfFuel, w, []⟩

/-- `dynograph_message(fmt, ...)`: a progress message. -/
def dynograph_message {σ : Type} (fmt : String) (args : List FmtArg) : M σ Unit :=
  emit (.dynograph_message fmt args)

/-- `dynograph_error(fmt, ...)`: report and terminate the process. -/
def dynograph_error {σ α : Type} (fmt : String) (args : List FmtArg) : M σ α :=
  fun w => ⟨.exit, w, [.dynograph_error fmt args]⟩

/-- `hooks_region_begin(trial)`. -/
def hooks_region_begin {σ : Type} (trial : Int) : M σ Unit :=
  emit (.hooks_region_begin trial)

/-- `hooks_region_end(trial)`. -/
def hooks_region_end {σ : Type} (trial : Int) : M σ Unit :=
  emit (.hooks_region_end trial)

/-- `printf(fmt, ...)` with integer arguments. -/
def printf {σ : Type} (fmt : String) (args : List Int) : M σ Unit :=
  emit (.printf fmt args)

/-- The loop `for (int64_t i = lo; i < hi; ++i) body(i)`. -/
def forLoop {σ : Type} (i hi : Int) (body : Int → M σ Unit) : M σ Unit :=
  if i < hi then M.bind (body i) (fun _ => forLoop (i + 1) hi body) else M.pure ()
termination_by (hi - i).toNat
decreasing_by omega

/-- The reduction `for (int64_t v = lo; v < hi; v++) acc += f(v)`. -/
def sumLoop (v hi : Int) (acc : Int) (f : Int → Int) : Int :=
  if v < hi then sumLoop (v + 1) hi (acc + f v) f else acc
termination_by (hi - v).toNat
decreasing_by omega

/-- A call whose result does not depend on the graph store or the heap. -/
def answer {σ α : Type} (a : α) (e : Event) : M σ α :=
  fun w => ⟨.ok a, w, [e]⟩

/-! ## The driver -/

/-- The parsed command line (`struct args`). -/
structure args where
  alg_name : String
  input_path : String
  window_size : Int
  num_batches : Int
  num_trials : Int
deriving DecidableEq, Repr

/-- `get_args(argc, argv)`, with `argc = argv.length`. -/
def get_args {σ : Type} (argv : List String) : M σ args := do
  if argv.length ≠ 6 then
    dynograph_error "Usage: alg_name input_path num_batches window_size num_trials \n" []
  let alg_name := argv.getD 1 ""
  let input_path := argv.getD 2 ""
  let num_batches := atoll (argv.getD 3 "")
  let window_size := atoll (argv.getD 4 "")
  let num_trials := atoll (argv.getD 5 "")
  if num_batches < 1 ∨ window_size < 1 ∨ num_trials < 1 then
    dynograph_error "num_batches, window_size, and num_trials must be positive" []
  return { alg_name := alg_name, input_path := input_path, window_size := window_size,
           num_batches := num_batches, num_trials := num_trials }

/-- `filtered_edge_count(S, nv, modified_after)`: the number of edges that
satisfy the filter.  The body of `STINGER_FORALL_OUT_EDGES_OF_VTX_MODIFIED_AFTER`
runs once per out-edge of `v` modified after the threshold. -/
def filtered_edge_count {σ δ : Type} (env : Env σ δ) (w : σ) (S : Nat)
    (nv modified_after : Int) : Int :=
  sumLoop 0 nv 0 (fun v => env.out_edges_modified_after w S v modified_after)

/-- `print_graph_stats(S, nv, modified_after)`. -/
def print_graph_stats {σ δ : Type} (env : Env σ δ) (S : Nat) (nv modified_after : Int) :
    M σ Unit := do
  let stats ← call (fun w => env.xmalloc w env.sizeof_stinger_fragmentation_t)
    (.xmalloc env.sizeof_stinger_fragmentation_t)
  let frag ← query (fun w => env.stinger_fragmentation w S nv)
    (fun _ => .stinger_fragmentation S nv)
  printf "\x7b\n" []
  printf "\"num_vertices\"            :%ld,\n" [nv]
  let w ← getWorld
  printf "\"num_filtered_edges\"      :%ld,\n" [filtered_edge_count env w S nv modified_after]
  printf "\"num_edges\"               :%ld,\n" [frag.num_edges]
  printf "\"num_empty_edges\"         :%ld,\n" [frag.num_empty_edges]
  printf "\"num_fragmented_blocks\"   :%ld,\n" [frag.num_fragmented_blocks]
  printf "\"edge_blocks_in_use\"      :%ld,\n" [frag.edge_blocks_in_use]
  printf "\"num_empty_blocks\"        :%ld\n" [frag.num_empty_blocks]
  printf "\x7d\n" []
  effect (fun w => env.free w stats) (.free stats)

/-- `insert_batch(S, batch, trial)`.  The loop is an OpenMP parallel loop; the
trace lists the insertions in index order, one of the possible schedules. -/
def insert_batch {σ δ : Type} (env : Env σ δ) (S : Nat) (batch : dynograph_edge_batch)
    (trial : Int) : M σ Unit := do
  let type : Int := 0
  let num_edges : Int := batch.num_edges
  let directed : Int := batch.directed
  hooks_region_begin trial
  forLoop 0 num_edges (fun i =>
    let e := batch.edges.getD i.toNat default
    if directed ≠ 0 then
      effect (fun w => env.stinger_insert_edge w S type e.src e.dst e.weight e.timestamp)
        (.stinger_insert_edge S type e.src e.dst e.weight e.timestamp)
    else
      effect (fun w => env.stinger_insert_edge_pair w S type e.src e.dst e.weight e.timestamp)
        (.stinger_insert_edge_pair S type e.src e.dst e.weight e.timestamp))
  hooks_region_end trial

/-- An entry of the benchmark registry (`struct benchmark`). -/
structure benchmark where
  name : String
  data_per_vertex : Int
deriving DecidableEq, Repr, Inhabited

/-- The static registry `benchmarks[]`. -/
def benchmarks : List benchmark :=
  [ ⟨"all", 4⟩,
    ⟨"bfs", 4⟩,
    ⟨"bfs-do", 4⟩,
    ⟨"betweenness", 2⟩,
    ⟨"clustering", 1⟩,
    ⟨"components", 1⟩,
    ⟨"kcore", 2⟩,
    ⟨"pagerank", 2⟩ ]

/-- The search loop of `get_benchmark`, entered at index `i`: the first entry
from `i` on whose name compares equal, or `none` (the C `NULL`). -/
def get_benchmark_loop (name : String) (i : Nat) : Option benchmark :=
  if h : i < benchmarks.length then
    if benchmarks[i].name = name then some benchmarks[i]
    else get_benchmark_loop name (i + 1)
  else none
termination_by benchmarks.length - i

/-- `get_benchmark(name)`. -/
def get_benchmark {σ : Type} (name : String) : M σ benchmark :=
  match get_benchmark_loop name 0 with
  | none => dynograph_error "Benchmark \x27%s\x27 does not exist!" [.str name]
  | some b => pure b

/-- The body of `run_benchmark`, with the recursive call as the parameter
`recur`.  Offsets `s * max_nv` are in 8-byte elements from `alg_data`. -/
def run_benchmark_body {σ δ : Type} (env : Env σ δ)
    (recur : String → Nat → Int → Nat → Int → Int → M σ Unit)
    (alg_name : String) (S : Nat) (num_vertices : Int) (alg_data : Nat)
    (modified_after trial : Int) : M σ Unit := do
  dynograph_message "Running %s..." [.str alg_name]
  let max_nv ← query (fun w => env.stinger_max_nv w S) (.stinger_max_nv S)
  if alg_name = "all" then
    forLoop 1 benchmarks.length (fun i =>
      recur (benchmarks.getD i.toNat default).name S num_vertices alg_data modified_after trial)
  else if alg_name = "bfs" then
    let marks : Ptr := ⟨alg_data, 0 * max_nv⟩
    let queue : Ptr := ⟨alg_data, 1 * max_nv⟩
    let Qhead : Ptr := ⟨alg_data, 2 * max_nv⟩
    let level : Ptr := ⟨alg_data, 3 * max_nv⟩
    let source_vertex : Int := 3
    hooks_region_begin trial
    let levels ← call (fun w => env.kernel w (.parallel_breadth_first_search S num_vertices
        source_vertex marks queue Qhead level modified_after))
      (.kernel (.parallel_breadth_first_search S num_vertices source_vertex marks queue Qhead
        level modified_after))
    hooks_region_end trial
    if levels < 5 then
      dynograph_message "WARNING: Breadth-first search was only %ld levels. Consider choosing a different source vertex." [.int levels]
  else if alg_name = "bfs-do" then
    let marks : Ptr := ⟨alg_data, 0 * max_nv⟩
    let queue : Ptr := ⟨alg_data, 1 * max_nv⟩
    let Qhead : Ptr := ⟨alg_data, 2 * max_nv⟩
    let level : Ptr := ⟨alg_data, 3 * max_nv⟩
    let source_vertex : Int := 3
    hooks_region_begin trial
    let levels ← call (fun w => env.kernel w
        (.direction_optimizing_parallel_breadth_first_search S num_vertices
          source_vertex marks queue Qhead level modified_after))
      (.kernel (.direction_optimizing_parallel_breadth_first_search S num_vertices
        source_vertex marks queue Qhead level modified_after))
    hooks_region_end trial
    if levels < 5 then
      dynograph_message "WARNING: Breadth-first search was only %ld levels. Consider choosing a different source vertex." [.int levels]
  else if alg_name = "betweenness" then
    let bc : Ptr := ⟨alg_data, 0 * max_nv⟩
    let found_count : Ptr := ⟨alg_data, 1 * max_nv⟩
    let num_samples : Int := 256
    hooks_region_begin trial
    let _ ← call (fun w => env.kernel w
        (.sample_search S num_vertices num_samples bc found_count modified_after))
      (.kernel (.sample_search S num_vertices num_samples bc found_count modified_after))
    hooks_region_end trial
  else if alg_name = "clustering" then
    let num_triangles : Ptr := ⟨alg_data, 0 * max_nv⟩
    hooks_region_begin trial
    let _ ← call (fun w => env.kernel w (.count_all_triangles S num_triangles modified_after))
      (.kernel (.count_all_triangles S num_triangles modified_after))
    hooks_region_end trial
  else if alg_name = "components" then
    let component_map : Ptr := ⟨alg_data, 0 * max_nv⟩
    hooks_region_begin trial
    let _ ← call (fun w => env.kernel w
        (.parallel_shiloach_vishkin_components S num_vertices component_map modified_after))
      (.kernel (.parallel_shiloach_vishkin_components S num_vertices component_map
        modified_after))
    hooks_region_end trial
  else if alg_name = "kcore" then
    let labels : Ptr := ⟨alg_data, 0 * max_nv⟩
    let counts : Ptr := ⟨alg_data, 1 * max_nv⟩
    let k : Int := 0
    hooks_region_begin trial
    let _ ← call (fun w => env.kernel w
        (.kcore_find S labels counts num_vertices k modified_after))
      (.kernel (.kcore_find S labels counts num_vertices k modified_after))
    hooks_region_end trial
  else if alg_name = "pagerank" then
    let pagerank_scores : Ptr := ⟨alg_data, 0 * max_nv⟩
    let pagerank_scores_tmp : Ptr := ⟨alg_data, 1 * max_nv⟩
    hooks_region_begin trial
    let _ ← call (fun w => env.kernel w
        (.page_rank_directed S num_vertices pagerank_scores pagerank_scores_tmp
          ⟨1, -8⟩ ⟨85, -2⟩ 100 modified_after))
      (.kernel (.page_rank_directed S num_vertices pagerank_scores pagerank_scores_tmp
        ⟨1, -8⟩ ⟨85, -2⟩ 100 modified_after))
    hooks_region_end trial
  else
    dynograph_error "Algorithm %s not implemented!" [.str alg_name]

/-- `run_benchmark` unrolled to recursion depth `fuel`. -/
def run_benchmark_fuel {σ δ : Type} (env : Env σ δ) :
    Nat → String → Nat → Int → Nat → Int → Int → M σ Unit
  | 0 => fun _ _ _ _ _ _ => outOfFuel
  | fuel + 1 => run_benchmark_body env (run_benchmark_fuel env fuel)

/-- `run_benchmark(alg_name, S, num_vertices, alg_data, modified_after, trial)`.
The function calls itself only from the `"all"` branch and only on the
registry names after `"all"`, so depth two is the whole recursion
(`run_benchmark_unfold` below shows that it satisfies the recursive equation
of the source). -/
def run_benchmark {σ δ : Type} (env : Env σ δ) (alg_name : String) (S : Nat)
    (num_vertices : Int) (alg_data : Nat) (modified_after trial : Int) : M σ Unit :=
  run_benchmark_fuel env 2 alg_name S num_vertices alg_data modified_after trial

/-- `main(argc, argv)`, with `argc = argv.length`.  The local `num_vertices`
is a `uint64_t`; it is converted back to `int64_t` where it is passed on. -/
def main {σ δ : Type} (env : Env σ δ) (argv : List String) : M σ Int := do
  let args ← get_args argv
  let dataset ← answer (env.dynograph_load_dataset args.input_path args.num_batches)
    (.dynograph_load_dataset args.input_path args.num_batches)
  let b ← get_benchmark args.alg_name
  forLoop 0 args.num_trials (fun trial => do
    let S ← call env.stinger_new .stinger_new
    let max_nv ← query (fun w => env.stinger_max_nv w S) (.stinger_max_nv S)
    let num_vertices : Int := toU64 max_nv
    let alg_data ← call (fun w => env.xcalloc w (toU64 (8 * b.data_per_vertex)) num_vertices)
      (.xcalloc (toU64 (8 * b.data_per_vertex)) num_vertices)
    forLoop 0 (env.num_batches dataset) (fun i => do
      let batch ← answer (env.dynograph_get_batch dataset i) (.dynograph_get_batch i)
      dynograph_message "Inserting batch %i (%ld edges)" [.int i, .int batch.num_edges]
      insert_batch env S batch trial
      let modified_after ← answer
        (env.dynograph_get_timestamp_for_window dataset i args.window_size)
        (.dynograph_get_timestamp_for_window i args.window_size)
      let active ← query (fun w => env.stinger_max_active_vertex w S)
        (.stinger_max_active_vertex S)
      let num_vertices : Int := toU64 (active + 1)
      run_benchmark env b.name S (wrapI64 num_vertices) alg_data modified_after trial
      print_graph_stats env S (wrapI64 num_vertices) modified_after)
    effect (fun w => env.free w alg_data) (.free alg_data)
    effect (fun w => env.stinger_free w S) (.stinger_free S))
  emit .dynograph_free_dataset
  return 0

/-! ## Vocabulary of the properties -/

/-- The argument is the decimal numeral of a positive integer: one or more
decimal digits and nothing else, not all of them zero. -/
def isPositiveIntegerArg (s : String) : Bool :=
  !s.toList.isEmpty && s.toList.all Char.isDigit && decide (0 < digitsValue s.toList 0)

/-- A small instance of the collaborators: the world counts the edges
inserted into the current graph, the store has capacity 16 and reports
`min world 15` as its highest active vertex, every batch of the dataset
holds two undirected edges. -/
def demoEnv : Env Nat (List dynograph_edge_batch) where
  dynograph_load_dataset := fun _ n =>
    (List.range n.toNat).map
      (fun i => ⟨[⟨i, i + 1, 1, 10 * i⟩, ⟨i + 1, i + 2, 1, 10 * i + 5⟩], 0⟩)
  num_batches := fun ds => ds.length
  dynograph_get_batch := fun ds i => ds.getD i.toNat ⟨[], 0⟩
  dynograph_get_timestamp_for_window := fun _ i W => 10 * (i - W)
  stinger_new := fun _ => (1, 0)
  stinger_max_nv := fun _ _ => 16
  stinger_max_active_vertex := fun w _ => ((min w 15 : Nat) : Int)
  stinger_insert_edge := fun w _ _ _ _ _ _ => w + 1
  stinger_insert_edge_pair := fun w _ _ _ _ _ _ => w + 1
  stinger_fragmentation := fun w _ _ => ⟨w, 0, 0, 1, 0⟩
  out_edges_modified_after := fun _ _ _ _ => 1
  stinger_free := fun _ _ => 0
  xcalloc := fun w _ _ => (7, w)
  xmalloc := fun w _ => (8, w)
  free := fun w _ => w
  kernel := fun w _ => (w, w)
  sizeof_stinger_fragmentation_t := 64

/-- The store call that `insert_batch` makes for edge `e` of a batch with
flag `directed`: the single-direction insert for a non-zero flag, the
symmetric pair insert for zero, both with edge type 0. -/
def insertCall (S : Nat) (directed : Int) (e : dynograph_edge) : Event :=
  if directed ≠ 0 then Event.stinger_insert_edge S 0 e.src e.dst e.weight e.timestamp
  else Event.stinger_insert_edge_pair S 0 e.src e.dst e.weight e.timestamp

/-- Store insertions. -/
def Event.isInsert : Event → Bool
  | .stinger_insert_edge .. => true
  | .stinger_insert_edge_pair .. => true
  | _ => false

/-- The store insertions of a trace, in order. -/
def insertCalls (tr : List Event) : List Event := tr.filter Event.isInsert

/-- The sub-arrays of the scratch buffer that a kernel call receives, in the
order of its arguments. -/
def KernelCall.slots : KernelCall → List Ptr
  | .parallel_breadth_first_search _ _ _ marks queue Qhead level _ =>
    [marks, queue, Qhead, level]
  | .direction_optimizing_parallel_breadth_first_search _ _ _ marks queue Qhead level _ =>
    [marks, queue, Qhead, level]
  | .sample_search _ _ _ bc found_count _ => [bc, found_count]
  | .count_all_triangles _ num_triangles _ => [num_triangles]
  | .parallel_shiloach_vishkin_components _ _ component_map _ => [component_map]
  | .kcore_find _ labels counts _ _ _ => [labels, counts]
  | .page_rank_directed _ _ pagerank_scores pagerank_scores_tmp _ _ _ _ =>
    [pagerank_scores, pagerank_scores_tmp]

/-- The graph a kernel call works on. -/
def KernelCall.graph : KernelCall → Nat
  | .parallel_breadth_first_search S .. => S
  | .direction_optimizing_parallel_breadth_first_search S .. => S
  | .sample_search S .. => S
  | .count_all_triangles S .. => S
  | .parallel_shiloach_vishkin_components S .. => S
  | .kcore_find S .. => S
  | .page_rank_directed S .. => S

/-- The window threshold a kernel call receives. -/
def KernelCall.modified_after : KernelCall → Int
  | .parallel_breadth_first_search _ _ _ _ _ _ _ ma => ma
  | .direction_optimizing_parallel_breadth_first_search _ _ _ _ _ _ _ ma => ma
  | .sample_search _ _ _ _ _ ma => ma
  | .count_all_triangles _ _ ma => ma
  | .parallel_shiloach_vishkin_components _ _ _ ma => ma
  | .kcore_find _ _ _ _ _ ma => ma
  | .page_rank_directed _ _ _ _ _ _ _ ma => ma

/-- The registry name under which `run_benchmark` dispatches a kernel. -/
def KernelCall.benchmarkName : KernelCall → String
  | .parallel_breadth_first_search .. => "bfs"
  | .direction_optimizing_parallel_breadth_first_search .. => "bfs-do"
  | .sample_search .. => "betweenness"
  | .count_all_triangles .. => "clustering"
  | .parallel_shiloach_vishkin_components .. => "components"
  | .kcore_find .. => "kcore"
  | .page_rank_directed .. => "pagerank"

/-- The kernel call of an event, if it is one. -/
def Event.kernelCall? : Event → Option KernelCall
  | .kernel c _ => some c
  | _ => none

/-- The kernel calls of a trace, in order. -/
def kernelCalls (tr : List Event) : List KernelCall := tr.filterMap Event.kernelCall?

/-- The text of the warning after a shallow breadth-first search. -/
def bfsWarning : String :=
  "WARNING: Breadth-first search was only %ld levels. Consider choosing a different source vertex."

/-- The outcome `o` is that of one kernel dispatch under the registry name
`name` from world `w`: the progress message, the capacity query, one timing
region around exactly one kernel call `c` whose sub-arrays are the slots
`0, ..., dpv - 1` of the buffer at stride `stinger_max_nv`, and possibly the
breadth-first search warning. -/
def ConcreteRun {σ δ : Type} (env : Env σ δ) (name : String) (dpv : Int) (S : Nat)
    (buf : Nat) (ma trial : Int) (w : σ) (o : Outcome σ Unit) : Prop :=
  ∃ (c : KernelCall) (warn : List Event),
    c.benchmarkName = name ∧ c.graph = S ∧ c.modified_after = ma ∧
    c.slots = (List.range dpv.toNat).map
      (fun s : Nat => (⟨buf, (s : Int) * env.stinger_max_nv w S⟩ : Ptr)) ∧
    (warn = [] ∨ ∃ levels, warn = [Event.dynograph_message bfsWarning [FmtArg.int levels]]) ∧
    o = ⟨Res.ok (), (env.kernel w c).2,
      [Event.dynograph_message "Running %s..." [FmtArg.str name],
        Event.stinger_max_nv S (env.stinger_max_nv w S),
        Event.hooks_region_begin trial,
        Event.kernel c (env.kernel w c).1,
        Event.hooks_region_end trial] ++ warn⟩

/-- The seven concrete registry names, in registry order. -/
def concreteNames : List String :=
  ["bfs", "bfs-do", "betweenness", "clustering", "components", "kcore", "pagerank"]

/-- One call of `run_benchmark` per name of the list, in order, with the same
remaining arguments. -/
def runEach {σ δ : Type} (env : Env σ δ) (names : List String) (S : Nat) (nv : Int)
    (buf : Nat) (ma trial : Int) : M σ Unit :=
  match names with
  | [] => pure ()
  | n :: ns => run_benchmark env n S nv buf ma trial >>= fun _ => runEach env ns S nv buf ma trial

/-- Kernel calls and timing-region events. -/
def Event.isMeasured : Event → Bool
  | .kernel .. => true
  | .hooks_region_begin _ => true
  | .hooks_region_end _ => true
  | _ => false

/-- The `dynograph_error` calls. -/
def Event.isError : Event → Bool
  | .dynograph_error .. => true
  | _ => false

/-- What a timing region measures: one kernel call, or the store insertions
of one batch. -/
inductive UnitKind
  | kernel
  | inserts
deriving DecidableEq, Repr

/-- Where a trace stands with respect to timing regions: outside any region,
inside a region whose unit of work may still run (`begun`), or inside a
region whose kernel call has run (`done`). -/
inductive RegionState
  | outside
  | begun
  | done
deriving DecidableEq, Repr

/-- One event of a trace read against the timing discipline for `trial`:
`none` when the event is out of place.  Outside a region only the begin of a
region and calls that are neither measured work nor region events are in
place; inside a region only the measured work and then the end of the
region, with the same trial id, are. -/
def regionStep (kind : UnitKind) (trial : Int) : RegionState → Event → Option RegionState
  | .outside, .hooks_region_begin t => if t = trial then some .begun else none
  | .outside, .hooks_region_end _ => none
  | .outside, .kernel _ _ => none
  | .outside, .stinger_insert_edge .. => none
  | .outside, .stinger_insert_edge_pair .. => none
  | .outside, _ => some .outside
  | .begun, .kernel _ _ => if kind = .kernel then some .done else none
  | .begun, .stinger_insert_edge .. => if kind = .inserts then some .begun else none
  | .begun, .stinger_insert_edge_pair .. => if kind = .inserts then some .begun else none
  | .begun, .hooks_region_end t => if kind = .inserts ∧ t = trial then some .outside else none
  | .begun, _ => none
  | .done, .hooks_region_end t => if t = trial then some .outside else none
  | .done, _ => none

/-- A trace read from a state. -/
def regionRun (kind : UnitKind) (trial : Int) : RegionState → List Event → Option RegionState
  | s, [] => some s
  | s, e :: es =>
    match regionStep kind trial s e with
    | some s1 => regionRun kind trial s1 es
    | none => none

/-- The timing regions of a trace are paired, not nested, carry the id
`trial`, and each holds exactly its unit of work and nothing else; measured
work occurs only inside a region. -/
def wellBracketed (kind : UnitKind) (trial : Int) (tr : List Event) : Bool :=
  regionRun kind trial .outside tr = some .outside

/-- The begin of a timing region. -/
def Event.isRegionBegin : Event → Bool
  | .hooks_region_begin _ => true
  | _ => false

/-- The number of timing regions opened in a trace. -/
def regionCount (tr : List Event) : Nat := tr.countP Event.isRegionBegin

/-- Allocations of a scratch buffer (`xcalloc`). -/
def Event.isCalloc : Event → Bool
  | .xcalloc .. => true
  | _ => false

/-- What every trace of `run_benchmark` under a registered name satisfies,
whatever the collaborators answer: the timing regions are well formed with
one kernel call each, every kernel call works on the graph `S` with the
threshold `ma` on sub-arrays of the buffer `buf`, and there is neither an
error nor an allocation. -/
def Dispatched (S : Nat) (buf : Nat) (ma trial : Int) (tr : List Event) : Prop :=
  wellBracketed UnitKind.kernel trial tr = true ∧
  regionCount tr = (kernelCalls tr).length ∧
  (∀ c ∈ kernelCalls tr, c.graph = S ∧ c.modified_after = ma ∧ ∀ p ∈ c.slots, p.base = buf) ∧
  (∀ e ∈ tr, e.isError = false ∧ e.isCalloc = false ∧ e.isInsert = false)

/-- The value fits `int64_t`. -/
def InI64 (x : Int) : Prop := -(2 : Int) ^ 63 ≤ x ∧ x < (2 : Int) ^ 63

/-- The body of the loop of `insert_batch`, as a function of the loop index. -/
def insertLoopBody {σ δ : Type} (env : Env σ δ) (S : Nat) (batch : dynograph_edge_batch)
    (i : Int) : M σ Unit :=
  let e := batch.edges.getD i.toNat default
  if batch.directed ≠ 0 then
    effect (fun w => env.stinger_insert_edge w S 0 e.src e.dst e.weight e.timestamp)
      (.stinger_insert_edge S 0 e.src e.dst e.weight e.timestamp)
  else
    effect (fun w => env.stinger_insert_edge_pair w S 0 e.src e.dst e.weight e.timestamp)
      (.stinger_insert_edge_pair S 0 e.src e.dst e.weight e.timestamp)

/-- The body of the batch loop of `main`, as a function of the loop index. -/
def batchBody {σ δ : Type} (env : Env σ δ) (dataset : δ) (b : benchmark)
    (window_size trial : Int) (S alg_data : Nat) (i : Int) : M σ Unit := do
  let batch ← answer (env.dynograph_get_batch dataset i) (.dynograph_get_batch i)
  dynograph_message "Inserting batch %i (%ld edges)" [.int i, .int batch.num_edges]
  insert_batch env S batch trial
  let modified_after ← answer
    (env.dynograph_get_timestamp_for_window dataset i window_size)
    (.dynograph_get_timestamp_for_window i window_size)
  let active ← query (fun w => env.stinger_max_active_vertex w S)
    (.stinger_max_active_vertex S)
  let num_vertices : Int := toU64 (active + 1)
  run_benchmark env b.name S (wrapI64 num_vertices) alg_data modified_after trial
  print_graph_stats env S (wrapI64 num_vertices) modified_after

/-- The body of the trial loop of `main`, as a function of the loop index. -/
def trialBody {σ δ : Type} (env : Env σ δ) (dataset : δ) (b : benchmark)
    (window_size trial : Int) : M σ Unit := do
  let S ← call env.stinger_new .stinger_new
  let max_nv ← query (fun w => env.stinger_max_nv w S) (.stinger_max_nv S)
  let num_vertices : Int := toU64 max_nv
  let alg_data ← call (fun w => env.xcalloc w (toU64 (8 * b.data_per_vertex)) num_vertices)
    (.xcalloc (toU64 (8 * b.data_per_vertex)) num_vertices)
  forLoop 0 (env.num_batches dataset) (batchBody env dataset b window_size trial S alg_data)
  effect (fun w => env.free w alg_data) (.free alg_data)
  effect (fun w => env.stinger_free w S) (.stinger_free S)

/-- The trace `tr` is the concatenation of `k` consecutive segments, and the
`j`-th of them (from 0) satisfies `P (i + j)`. -/
def Segments (P : Int → List Event → Prop) : Nat → Int → List Event → Prop
  | 0, _, tr => tr = []
  | k + 1, i, tr => ∃ a rest, tr = a ++ rest ∧ P i a ∧ Segments P k (i + 1) rest

/-- The calls of `main` for batch `i` of trial `t` on the graph `S` with the
buffer `buf`: fetch the batch, announce it, insert it (from some world `w1`),
compute the window threshold, query the highest active vertex `active` of the
store as the insertion left it, run the benchmark with `active + 1` vertices
and that threshold, print the statistics with the same two values. -/
def BatchSteps {σ δ : Type} (env : Env σ δ) (dataset : δ) (name : String)
    (window_size t : Int) (S buf : Nat) (i : Int) (tr : List Event) : Prop :=
  ∃ w1 : σ,
    tr =
      [Event.dynograph_get_batch i,
        Event.dynograph_message "Inserting batch %i (%ld edges)"
          [FmtArg.int i, FmtArg.int (env.dynograph_get_batch dataset i).num_edges]] ++
      (insert_batch env S (env.dynograph_get_batch dataset i) t w1).trace ++
      [Event.dynograph_get_timestamp_for_window i window_size,
        Event.stinger_max_active_vertex S
          (env.stinger_max_active_vertex
            (insert_batch env S (env.dynograph_get_batch dataset i) t w1).world S)] ++
      (run_benchmark env name S
        (env.stinger_max_active_vertex
          (insert_batch env S (env.dynograph_get_batch dataset i) t w1).world S + 1)
        buf (env.dynograph_get_timestamp_for_window dataset i window_size) t
        (insert_batch env S (env.dynograph_get_batch dataset i) t w1).world).trace ++
      (print_graph_stats env S
        (env.stinger_max_active_vertex
          (insert_batch env S (env.dynograph_get_batch dataset i) t w1).world S + 1)
        (env.dynograph_get_timestamp_for_window dataset i window_size)
        (run_benchmark env name S
          (env.stinger_max_active_vertex
            (insert_batch env S (env.dynograph_get_batch dataset i) t w1).world S + 1)
          buf (env.dynograph_get_timestamp_for_window dataset i window_size) t
          (insert_batch env S (env.dynograph_get_batch dataset i) t w1).world).world).trace

/-- The calls of `main` for trial `t`: create a graph `S` (from some world
`w0`), query its capacity `M`, allocate the buffer with `xcalloc`, make the
calls of the batches `0, ..., n - 1` in this order, free the buffer, free the
graph. -/
def TrialSteps {σ δ : Type} (env : Env σ δ) (dataset : δ) (b : benchmark)
    (window_size t : Int) (tr : List Event) : Prop :=
  ∃ (w0 : σ) (body : List Event),
    tr =
      [Event.stinger_new (env.stinger_new w0).1,
        Event.stinger_max_nv (env.stinger_new w0).1
          (env.stinger_max_nv (env.stinger_new w0).2 (env.stinger_new w0).1),
        Event.xcalloc (toU64 (8 * b.data_per_vertex))
          (toU64 (env.stinger_max_nv (env.stinger_new w0).2 (env.stinger_new w0).1))
          (env.xcalloc (env.stinger_new w0).2 (toU64 (8 * b.data_per_vertex))
            (toU64 (env.stinger_max_nv (env.stinger_new w0).2 (env.stinger_new w0).1))).1] ++
      body ++
      [Event.free (env.xcalloc (env.stinger_new w0).2 (toU64 (8 * b.data_per_vertex))
          (toU64 (env.stinger_max_nv (env.stinger_new w0).2 (env.stinger_new w0).1))).1,
        Event.stinger_free (env.stinger_new w0).1] ∧
    Segments
      (BatchSteps env dataset b.name window_size t (env.stinger_new w0).1
        (env.xcalloc (env.stinger_new w0).2 (toU64 (8 * b.data_per_vertex))
          (toU64 (env.stinger_max_nv (env.stinger_new w0).2 (env.stinger_new w0).1))).1)
      (env.num_batches dataset).toNat 0 body

/-- Calls on the graph store, the allocator or a kernel: graph or buffer
work. -/
def Event.isGraphOrBufferWork : Event → Bool
  | .stinger_new _ => true
  | .stinger_max_nv .. => true
  | .stinger_max_active_vertex .. => true
  | .stinger_insert_edge .. => true
  | .stinger_insert_edge_pair .. => true
  | .stinger_fragmentation .. => true
  | .stinger_free _ => true
  | .xcalloc .. => true
  | .xmalloc .. => true
  | .free _ => true
  | .kernel .. => true
  | _ => false

/-- The scratch buffer over trial: the graph `S` is created (from some world
`w0`), its capacity `M = stinger_max_nv(S)` is read right after, the buffer
is allocated by `xcalloc(8 * data_per_vertex, M)`; the calls `body` of the
batch loop allocate no buffer and every kernel call in them gets sub-arrays
of this one buffer; then the buffer and the graph are freed. -/
def TrialBuffer {σ δ : Type} (env : Env σ δ) (b : benchmark) (tr : List Event) : Prop :=
  ∃ (w0 : σ) (body : List Event),
    tr =
      [Event.stinger_new (env.stinger_new w0).1,
        Event.stinger_max_nv (env.stinger_new w0).1
          (env.stinger_max_nv (env.stinger_new w0).2 (env.stinger_new w0).1),
        Event.xcalloc (8 * b.data_per_vertex)
          (env.stinger_max_nv (env.stinger_new w0).2 (env.stinger_new w0).1)
          (env.xcalloc (env.stinger_new w0).2 (8 * b.data_per_vertex)
            (env.stinger_max_nv (env.stinger_new w0).2 (env.stinger_new w0).1)).1] ++
      body ++
      [Event.free (env.xcalloc (env.stinger_new w0).2 (8 * b.data_per_vertex)
          (env.stinger_max_nv (env.stinger_new w0).2 (env.stinger_new w0).1)).1,
        Event.stinger_free (env.stinger_new w0).1] ∧
    (∀ e ∈ body, e.isCalloc = false) ∧
    (∀ c ∈ kernelCalls body, ∀ p ∈ c.slots,
      p.base = (env.xcalloc (env.stinger_new w0).2 (8 * b.data_per_vertex)
        (env.stinger_max_nv (env.stinger_new w0).2 (env.stinger_new w0).1)).1)

/-! ## Lemmas about computations -/

section Lemmas
variable {σ δ : Type}

theorem bind_eq {α β : Type} (m : M σ α) (f : α → M σ β) : (m >>= f) = M.bind m f := rfl

theorem pure_eq {α : Type} (a : α) : (pure a : M σ α) = M.pure a := rfl

theorem M.bind_of_ok {α β : Type} {m : M σ α} {w : σ} {a : α} (h : (m w).res = Res.ok a)
    (f : α → M σ β) :
    M.bind m f w =
      ⟨(f a (m w).world).res, (f a (m w).world).world,
        (m w).trace ++ (f a (m w).world).trace⟩ := by
  unfold M.bind
  rcases hm : m w with ⟨r, w1, t1⟩
  rw [hm] at h
  simp only at h
  subst h
  rfl

theorem M.bind_of_exit {α β : Type} {m : M σ α} {w : σ} (h : (m w).res = Res.exit)
    (f : α → M σ β) :
    M.bind m f w = ⟨Res.exit, (m w).world, (m w).trace⟩ := by
  unfold M.bind
  rcases hm : m w with ⟨r, w1, t1⟩
  rw [hm] at h
  simp only at h
  subst h
  rfl

@[simp] theorem bind_pure_apply {α β : Type} (a : α) (f : α → M σ β) (w : σ) :
    ((pure a : M σ α) >>= f) w = f a w := rfl

@[simp] theorem bind_emit_apply {β : Type} (e : Event) (f : Unit → M σ β) (w : σ) :
    (emit e >>= f) w = ⟨(f () w).res, (f () w).world, e :: (f () w).trace⟩ := rfl

@[simp] theorem bind_answer_apply {α β : Type} (a : α) (e : Event) (f : α → M σ β) (w : σ) :
    (answer a e >>= f) w = ⟨(f a w).res, (f a w).world, e :: (f a w).trace⟩ := rfl

@[simp] theorem bind_query_apply {α β : Type} (g : σ → α) (e : α → Event) (f : α → M σ β)
    (w : σ) :
    (query g e >>= f) w =
      ⟨(f (g w) w).res, (f (g w) w).world, e (g w) :: (f (g w) w).trace⟩ := rfl

@[simp] theorem bind_call_apply {α β : Type} (g : σ → α × σ) (e : α → Event)
    (f : α → M σ β) (w : σ) :
    (call g e >>= f) w =
      ⟨(f (g w).1 (g w).2).res, (f (g w).1 (g w).2).world,
        e (g w).1 :: (f (g w).1 (g w).2).trace⟩ := rfl

@[simp] theorem bind_effect_apply {β : Type} (g : σ → σ) (e : Event) (f : Unit → M σ β)
    (w : σ) :
    (effect g e >>= f) w =
      ⟨(f () (g w)).res, (f () (g w)).world, e :: (f () (g w)).trace⟩ := rfl

@[simp] theorem bind_getWorld_apply {β : Type} (f : σ → M σ β) (w : σ) :
    (getWorld >>= f) w = f w w := rfl

@[simp] theorem bind_error_apply {α β : Type} (fmt : String) (a : List FmtArg)
    (f : α → M σ β) (w : σ) :
    ((dynograph_error fmt a : M σ α) >>= f) w =
      ⟨Res.exit, w, [Event.dynograph_error fmt a]⟩ := rfl

@[simp] theorem pure_apply {α : Type} (a : α) (w : σ) :
    (pure a : M σ α) w = ⟨Res.ok a, w, []⟩ := rfl

@[simp] theorem emit_apply (e : Event) (w : σ) :
    (emit e : M σ Unit) w = ⟨Res.ok (), w, [e]⟩ := rfl

@[simp] theorem effect_apply (g : σ → σ) (e : Event) (w : σ) :
    effect g e w = ⟨Res.ok (), g w, [e]⟩ := rfl

@[simp] theorem error_apply {α : Type} (fmt : String) (a : List FmtArg) (w : σ) :
    (dynograph_error fmt a : M σ α) w = ⟨Res.exit, w, [Event.dynograph_error fmt a]⟩ := rfl

/-- Sequencing after a computation that returned. -/
theorem bind_apply_of_ok {α β : Type} {m : M σ α} {w : σ} {a : α}
    (h : (m w).res = Res.ok a) (f : α → M σ β) :
    (m >>= f) w =
      ⟨(f a (m w).world).res, (f a (m w).world).world,
        (m w).trace ++ (f a (m w).world).trace⟩ :=
  M.bind_of_ok h f

theorem forLoop_done (i hi : Int) (body : Int → M σ Unit) (h : ¬ i < hi) (w : σ) :
    forLoop i hi body w = ⟨Res.ok (), w, []⟩ := by
  rw [forLoop, if_neg h]
  rfl

theorem forLoop_step (i hi : Int) (body : Int → M σ Unit) (h : i < hi) (w : σ)
    (hb : (body i w).res = Res.ok ()) :
    forLoop i hi body w =
      ⟨(forLoop (i + 1) hi body (body i w).world).res,
        (forLoop (i + 1) hi body (body i w).world).world,
        (body i w).trace ++ (forLoop (i + 1) hi body (body i w).world).trace⟩ := by
  rw [forLoop, if_pos h]
  exact M.bind_of_ok hb _

/-! ### The registry search -/

/-- The search loop is a first-match search of the rest of the registry. -/
theorem get_benchmark_loop_eq (name : String) (i : Nat) :
    get_benchmark_loop name i = (benchmarks.drop i).find? (fun b => b.name = name) := by
  induction i using get_benchmark_loop.induct name with
  | case1 i h heq =>
    rw [get_benchmark_loop]
    simp only [h, heq, dite_true, if_true]
    rw [List.drop_eq_getElem_cons h, List.find?_cons]
    simp only [heq, decide_True]
  | case2 i h hne ih =>
    rw [get_benchmark_loop]
    simp only [h, hne, dite_true, if_false]
    rw [ih, List.drop_eq_getElem_cons h, List.find?_cons]
    simp only [hne, decide_False]
  | case3 i h =>
    rw [get_benchmark_loop]
    simp only [h, dite_false]
    rw [List.drop_eq_nil_of_le (by omega)]
    rfl

theorem get_benchmark_loop_zero (name : String) :
    get_benchmark_loop name 0 = benchmarks.find? (fun b => b.name = name) := by
  rw [get_benchmark_loop_eq, List.drop_zero]

/-- A registered entry is the one the search finds under its name. -/
theorem find_registered (b : benchmark) (hb : b ∈ benchmarks) :
    benchmarks.find? (fun c => c.name = b.name) = some b := by
  simp only [benchmarks, List.mem_cons, List.mem_singleton, List.not_mem_nil, or_false] at hb
  rcases hb with rfl | rfl | rfl | rfl | rfl | rfl | rfl | rfl <;> decide

/-! ### Batch insertion -/

/-- `insert_batch` with its loop body named. -/
theorem insert_batch_eq (env : Env σ δ) (S : Nat) (batch : dynograph_edge_batch)
    (trial : Int) :
    insert_batch env S batch trial =
      (hooks_region_begin trial >>= fun _ =>
        forLoop 0 batch.num_edges (insertLoopBody env S batch) >>= fun _ =>
          hooks_region_end trial) := rfl

/-- One iteration of the insertion loop makes the store call of its edge. -/
theorem insertLoopBody_run (env : Env σ δ) (S : Nat) (batch : dynograph_edge_batch)
    (i : Nat) (hi : i < batch.edges.length) (w : σ) :
    (insertLoopBody env S batch (i : Int) w).res = Res.ok () ∧
    (insertLoopBody env S batch (i : Int) w).trace =
      [insertCall S batch.directed batch.edges[i]] := by
  have hget : batch.edges.getD (i : Int).toNat default = batch.edges[i] := by
    simp [List.getD_eq_getElem?_getD, List.getElem?_eq_getElem hi]
  unfold insertLoopBody
  simp only [hget, insertCall]
  by_cases hd : batch.directed ≠ 0
  · simp only [if_pos hd, effect_apply, and_self]
  · simp only [if_neg hd, effect_apply, and_self]

/-- The insertion loop from index `i` on makes the store call of each
remaining edge, in index order. -/
theorem insert_loop_spec (env : Env σ δ) (S : Nat) (batch : dynograph_edge_batch) :
    ∀ (k i : Nat) (w : σ), i + k = batch.edges.length →
      (forLoop (i : Int) batch.num_edges (insertLoopBody env S batch) w).res = Res.ok () ∧
      (forLoop (i : Int) batch.num_edges (insertLoopBody env S batch) w).trace =
        (batch.edges.drop i).map (insertCall S batch.directed) := by
  intro k
  induction k with
  | zero =>
    intro i w h
    have hlt : ¬ ((i : Int) < batch.num_edges) := by
      unfold dynograph_edge_batch.num_edges
      omega
    rw [forLoop_done _ _ _ hlt]
    have hdrop : batch.edges.drop i = [] := List.drop_eq_nil_of_le (by omega)
    simp [hdrop]
  | succ k ih =>
    intro i w h
    have hi : i < batch.edges.length := by omega
    have hlt : (i : Int) < batch.num_edges := by
      unfold dynograph_edge_batch.num_edges
      omega
    have hb := insertLoopBody_run env S batch i hi w
    rw [forLoop_step _ _ _ hlt w hb.1]
    have hnext := ih (i + 1) (insertLoopBody env S batch (i : Int) w).world (by omega)
    rw [Nat.cast_succ] at hnext
    refine ⟨hnext.1, ?_⟩
    simp only
    rw [hnext.2, hb.2, List.drop_eq_getElem_cons hi]
    rfl

/-- The calls of `insert_batch`: region begin, one store call per edge in
index order, region end; it always returns. -/
theorem insert_batch_run (env : Env σ δ) (S : Nat) (batch : dynograph_edge_batch)
    (trial : Int) (w : σ) :
    (insert_batch env S batch trial w).res = Res.ok () ∧
    (insert_batch env S batch trial w).trace =
      Event.hooks_region_begin trial ::
        (batch.edges.map (insertCall S batch.directed) ++ [Event.hooks_region_end trial]) := by
  have hloop := insert_loop_spec env S batch batch.edges.length 0 w (by omega)
  rw [List.drop_zero, Nat.cast_zero] at hloop
  rw [insert_batch_eq]
  unfold hooks_region_begin hooks_region_end
  simp only [bind_emit_apply]
  rw [bind_apply_of_ok hloop.1]
  simp only [emit_apply, hloop.2, and_self]

/-! ### Kernel dispatch -/

/-- Under a registry name other than `"all"` the body of `run_benchmark`
dispatches exactly one kernel and never uses its recursive call. -/
theorem run_concrete (env : Env σ δ)
    (recur : String → Nat → Int → Nat → Int → Int → M σ Unit)
    (b : benchmark) (hb : b ∈ benchmarks) (hne : b.name ≠ "all")
    (S : Nat) (nv : Int) (buf : Nat) (ma trial : Int) (w : σ) :
    ConcreteRun env b.name b.data_per_vertex S buf ma trial w
      (run_benchmark_body env recur b.name S nv buf ma trial w) := by
  simp only [benchmarks, List.mem_cons, List.mem_singleton, List.not_mem_nil, or_false] at hb
  rcases hb with rfl | rfl | rfl | rfl | rfl | rfl | rfl | rfl
  · exact absurd rfl hne
  · refine ⟨.parallel_breadth_first_search S nv 3 ⟨buf, 0 * env.stinger_max_nv w S⟩
        ⟨buf, 1 * env.stinger_max_nv w S⟩ ⟨buf, 2 * env.stinger_max_nv w S⟩
        ⟨buf, 3 * env.stinger_max_nv w S⟩ ma,
      if (env.kernel w (.parallel_breadth_first_search S nv 3
          ⟨buf, 0 * env.stinger_max_nv w S⟩
          ⟨buf, 1 * env.stinger_max_nv w S⟩ ⟨buf, 2 * env.stinger_max_nv w S⟩
          ⟨buf, 3 * env.stinger_max_nv w S⟩ ma)).1 < 5
      then [Event.dynograph_message bfsWarning [FmtArg.int (env.kernel w
          (.parallel_breadth_first_search S nv 3 ⟨buf, 0 * env.stinger_max_nv w S⟩
          ⟨buf, 1 * env.stinger_max_nv w S⟩ ⟨buf, 2 * env.stinger_max_nv w S⟩
          ⟨buf, 3 * env.stinger_max_nv w S⟩ ma)).1]] else [],
      rfl, rfl, rfl, ?_, ?_, ?_⟩
    · simp [KernelCall.slots, List.range, List.range.loop]
    · split
      · exact Or.inr ⟨_, rfl⟩
      · exact Or.inl rfl
    · simp only [run_benchmark_body, dynograph_message, hooks_region_begin, hooks_region_end,
        bfsWarning]
      simp
      split_ifs <;> simp
  · refine ⟨.direction_optimizing_parallel_breadth_first_search S nv 3
        ⟨buf, 0 * env.stinger_max_nv w S⟩
        ⟨buf, 1 * env.stinger_max_nv w S⟩ ⟨buf, 2 * env.stinger_max_nv w S⟩
        ⟨buf, 3 * env.stinger_max_nv w S⟩ ma,
      if (env.kernel w (.direction_optimizing_parallel_breadth_first_search S nv 3
          ⟨buf, 0 * env.stinger_max_nv w S⟩
          ⟨buf, 1 * env.stinger_max_nv w S⟩ ⟨buf, 2 * env.stinger_max_nv w S⟩
          ⟨buf, 3 * env.stinger_max_nv w S⟩ ma)).1 < 5
      then [Event.dynograph_message bfsWarning [FmtArg.int (env.kernel w
          (.direction_optimizing_parallel_breadth_first_search S nv 3
          ⟨buf, 0 * env.stinger_max_nv w S⟩
          ⟨buf, 1 * env.stinger_max_nv w S⟩ ⟨buf, 2 * env.stinger_max_nv w S⟩
          ⟨buf, 3 * env.stinger_max_nv w S⟩ ma)).1]] else [],
      rfl, rfl, rfl, ?_, ?_, ?_⟩
    · simp [KernelCall.slots, List.range, List.range.loop]
    · split
      · exact Or.inr ⟨_, rfl⟩
      · exact Or.inl rfl
    · simp only [run_benchmark_body, dynograph_message, hooks_region_begin, hooks_region_end,
        bfsWarning]
      simp
      split_ifs <;> simp
  · refine ⟨.sample_search S nv 256 ⟨buf, 0 * env.stinger_max_nv w S⟩
        ⟨buf, 1 * env.stinger_max_nv w S⟩ ma, [], rfl, rfl, rfl, ?_, Or.inl rfl, ?_⟩
    · simp [KernelCall.slots, List.range, List.range.loop]
    · simp [run_benchmark_body, dynograph_message, hooks_region_begin, hooks_region_end]
  · refine ⟨.count_all_triangles S ⟨buf, 0 * env.stinger_max_nv w S⟩ ma, [],
      rfl, rfl, rfl, ?_, Or.inl rfl, ?_⟩
    · simp [KernelCall.slots, List.range, List.range.loop]
    · simp [run_benchmark_body, dynograph_message, hooks_region_begin, hooks_region_end]
  · refine ⟨.parallel_shiloach_vishkin_components S nv ⟨buf, 0 * env.stinger_max_nv w S⟩ ma,
      [], rfl, rfl, rfl, ?_, Or.inl rfl, ?_⟩
    · simp [KernelCall.slots, List.range, List.range.loop]
    · simp [run_benchmark_body, dynograph_message, hooks_region_begin, hooks_region_end]
  · refine ⟨.kcore_find S ⟨buf, 0 * env.stinger_max_nv w S⟩
        ⟨buf, 1 * env.stinger_max_nv w S⟩ nv 0 ma, [], rfl, rfl, rfl, ?_, Or.inl rfl, ?_⟩
    · simp [KernelCall.slots, List.range, List.range.loop]
    · simp [run_benchmark_body, dynograph_message, hooks_region_begin, hooks_region_end]
  · refine ⟨.page_rank_directed S nv ⟨buf, 0 * env.stinger_max_nv w S⟩
        ⟨buf, 1 * env.stinger_max_nv w S⟩ ⟨1, -8⟩ ⟨85, -2⟩ 100 ma, [],
      rfl, rfl, rfl, ?_, Or.inl rfl, ?_⟩
    · simp [KernelCall.slots, List.range, List.range.loop]
    · simp [run_benchmark_body, dynograph_message, hooks_region_begin, hooks_region_end]

/-- Outside the `"all"` branch the body of `run_benchmark` does not use its
recursive call. -/
theorem run_benchmark_body_recur (env : Env σ δ)
    (r1 r2 : String → Nat → Int → Nat → Int → Int → M σ Unit)
    (name : String) (hne : name ≠ "all") (S : Nat) (nv : Int) (buf : Nat) (ma trial : Int) :
    run_benchmark_body env r1 name S nv buf ma trial =
      run_benchmark_body env r2 name S nv buf ma trial := by
  unfold run_benchmark_body
  simp only [if_neg hne]

/-- The loop of the `"all"` branch, unrolled. -/
theorem forLoop_registry (body : Int → M σ Unit) :
    forLoop 1 (benchmarks.length : Int) body =
      M.bind (body 1) (fun _ => M.bind (body 2) (fun _ => M.bind (body 3) (fun _ =>
        M.bind (body 4) (fun _ => M.bind (body 5) (fun _ => M.bind (body 6) (fun _ =>
          M.bind (body 7) (fun _ => M.pure ()))))))) := by
  have hlen : (benchmarks.length : Int) = 8 := rfl
  have step : ∀ i : Int, i < 8 →
      forLoop i 8 body = M.bind (body i) (fun _ => forLoop (i + 1) 8 body) := by
    intro i h
    rw [forLoop, if_pos h]
  have stop : forLoop 8 8 body = M.pure () := by
    rw [forLoop, if_neg (by decide)]
  rw [hlen, step 1 (by decide), show (1 : Int) + 1 = 2 from rfl,
    step 2 (by decide), show (2 : Int) + 1 = 3 from rfl,
    step 3 (by decide), show (3 : Int) + 1 = 4 from rfl,
    step 4 (by decide), show (4 : Int) + 1 = 5 from rfl,
    step 5 (by decide), show (5 : Int) + 1 = 6 from rfl,
    step 6 (by decide), show (6 : Int) + 1 = 7 from rfl,
    step 7 (by decide), show (7 : Int) + 1 = 8 from rfl, stop]

/-- If two candidates for the recursive call agree on the seven concrete
registry names, the body of `run_benchmark` is the same with either. -/
theorem run_benchmark_body_congr (env : Env σ δ)
    (r1 r2 : String → Nat → Int → Nat → Int → Int → M σ Unit)
    (h : ∀ n ∈ concreteNames, r1 n = r2 n) (name : String) :
    run_benchmark_body env r1 name = run_benchmark_body env r2 name := by
  funext S nv buf ma trial
  by_cases hall : name = "all"
  · subst hall
    unfold run_benchmark_body
    simp only [if_true, forLoop_registry]
    have e1 : (benchmarks.getD (1 : Int).toNat default).name = "bfs" := rfl
    have e2 : (benchmarks.getD (2 : Int).toNat default).name = "bfs-do" := rfl
    have e3 : (benchmarks.getD (3 : Int).toNat default).name = "betweenness" := rfl
    have e4 : (benchmarks.getD (4 : Int).toNat default).name = "clustering" := rfl
    have e5 : (benchmarks.getD (5 : Int).toNat default).name = "components" := rfl
    have e6 : (benchmarks.getD (6 : Int).toNat default).name = "kcore" := rfl
    have e7 : (benchmarks.getD (7 : Int).toNat default).name = "pagerank" := rfl
    rw [e1, e2, e3, e4, e5, e6, e7,
      h "bfs" (by decide), h "bfs-do" (by decide), h "betweenness" (by decide),
      h "clustering" (by decide), h "components" (by decide), h "kcore" (by decide),
      h "pagerank" (by decide)]
  · exact run_benchmark_body_recur env r1 r2 name hall S nv buf ma trial

/-- From depth one on, a name other than `"all"` is dispatched the same way
at every depth. -/
theorem run_benchmark_fuel_concrete (env : Env σ δ) (n : Nat) (name : String)
    (hne : name ≠ "all") :
    run_benchmark_fuel env (n + 1) name = run_benchmark_fuel env 1 name := by
  funext S nv buf ma trial
  exact run_benchmark_body_recur env _ _ name hne S nv buf ma trial

/-- Depth two is the whole recursion: more depth changes nothing. -/
theorem run_benchmark_fuel_stable (env : Env σ δ) (n : Nat) :
    run_benchmark_fuel env (n + 2) = run_benchmark_fuel env 2 := by
  funext name
  show run_benchmark_body env (run_benchmark_fuel env (n + 1)) name =
    run_benchmark_body env (run_benchmark_fuel env 1) name
  apply run_benchmark_body_congr
  intro m hm
  apply run_benchmark_fuel_concrete
  revert m
  decide

/-- The model of `run_benchmark` satisfies the recursive equation of the
source: it is its own body with itself as the recursive call. -/
theorem run_benchmark_unfold (env : Env σ δ) :
    run_benchmark env = run_benchmark_body env (run_benchmark env) := by
  funext name
  show run_benchmark_body env (run_benchmark_fuel env 1) name =
    run_benchmark_body env (run_benchmark_fuel env 2) name
  apply run_benchmark_body_congr
  intro m hm
  refine (run_benchmark_fuel_concrete env 1 m ?_).symm
  revert m
  decide

/-- The `"all"` branch: the progress message, the capacity query, then one
call of `run_benchmark` per concrete registry name, in registry order. -/
theorem run_benchmark_all (env : Env σ δ) (S : Nat) (nv : Int) (buf : Nat)
    (ma trial : Int) :
    run_benchmark env "all" S nv buf ma trial =
      (dynograph_message "Running %s..." [FmtArg.str "all"] >>= fun _ =>
        query (fun w => env.stinger_max_nv w S) (Event.stinger_max_nv S) >>= fun _ =>
          runEach env concreteNames S nv buf ma trial) := by
  rw [run_benchmark_unfold]
  unfold run_benchmark_body
  simp only [if_true, forLoop_registry]
  rfl

/-! ### Timing regions -/

theorem regionRun_append (kind : UnitKind) (trial : Int) (a b : List Event) :
    ∀ s : RegionState, regionRun kind trial s (a ++ b) =
      match regionRun kind trial s a with
      | some s1 => regionRun kind trial s1 b
      | none => none := by
  induction a with
  | nil => intro s; rfl
  | cons e es ih =>
    intro s
    simp only [List.cons_append, regionRun]
    cases regionStep kind trial s e with
    | none => rfl
    | some s1 => exact ih s1

theorem wellBracketed_append (kind : UnitKind) (trial : Int) (a b : List Event)
    (ha : wellBracketed kind trial a = true) (hb : wellBracketed kind trial b = true) :
    wellBracketed kind trial (a ++ b) = true := by
  simp only [wellBracketed, decide_eq_true_eq] at ha hb ⊢
  rw [regionRun_append, ha]
  exact hb

theorem wellBracketed_nil (kind : UnitKind) (trial : Int) :
    wellBracketed kind trial [] = true := by
  simp [wellBracketed, regionRun]

theorem kernelCalls_append (a b : List Event) :
    kernelCalls (a ++ b) = kernelCalls a ++ kernelCalls b := by
  simp [kernelCalls]

theorem regionCount_append (a b : List Event) :
    regionCount (a ++ b) = regionCount a + regionCount b := by
  simp [regionCount]

theorem dispatched_nil (S buf : Nat) (ma trial : Int) : Dispatched S buf ma trial [] := by
  refine ⟨wellBracketed_nil _ _, rfl, ?_, ?_⟩
  · intro c hc
    simp [kernelCalls] at hc
  · intro e he
    simp at he

theorem dispatched_append (S buf : Nat) (ma trial : Int) (a b : List Event)
    (ha : Dispatched S buf ma trial a) (hb : Dispatched S buf ma trial b) :
    Dispatched S buf ma trial (a ++ b) := by
  obtain ⟨ha1, ha2, ha3, ha4⟩ := ha
  obtain ⟨hb1, hb2, hb3, hb4⟩ := hb
  refine ⟨wellBracketed_append _ _ _ _ ha1 hb1, ?_, ?_, ?_⟩
  · rw [regionCount_append, kernelCalls_append, List.length_append, ha2, hb2]
  · intro c hc
    rw [kernelCalls_append, List.mem_append] at hc
    rcases hc with hc | hc
    · exact ha3 c hc
    · exact hb3 c hc
  · intro e he
    rw [List.mem_append] at he
    rcases he with he | he
    · exact ha4 e he
    · exact hb4 e he

/-- One kernel dispatch satisfies the dispatch discipline. -/
theorem dispatched_of_concrete (env : Env σ δ) (name : String) (dpv : Int) (S buf : Nat)
    (ma trial : Int) (w : σ) (o : Outcome σ Unit)
    (h : ConcreteRun env name dpv S buf ma trial w o) :
    o.res = Res.ok () ∧ Dispatched S buf ma trial o.trace ∧
      (kernelCalls o.trace).map KernelCall.benchmarkName = [name] := by
  obtain ⟨c, warn, hname, hS, hma, hslots, hwarn, rfl⟩ := h
  have hbase : ∀ p ∈ c.slots, p.base = buf := by
    intro p hp
    rw [hslots, List.mem_map] at hp
    obtain ⟨s, _, rfl⟩ := hp
    rfl
  rcases hwarn with rfl | ⟨levels, rfl⟩
  · refine ⟨rfl, ⟨?_, ?_, ?_, ?_⟩, ?_⟩
    · simp [wellBracketed, regionRun, regionStep]
    · simp [regionCount, kernelCalls, Event.isRegionBegin, Event.kernelCall?]
    · intro c1 hc1
      simp [kernelCalls, Event.kernelCall?] at hc1
      subst hc1
      exact ⟨hS, hma, hbase⟩
    · intro e he
      simp at he
      rcases he with rfl | rfl | rfl | rfl | rfl <;> exact ⟨rfl, rfl, rfl⟩
    · simp [kernelCalls, Event.kernelCall?, hname]
  · refine ⟨rfl, ⟨?_, ?_, ?_, ?_⟩, ?_⟩
    · simp [wellBracketed, regionRun, regionStep]
    · simp [regionCount, kernelCalls, Event.isRegionBegin, Event.kernelCall?]
    · intro c1 hc1
      simp [kernelCalls, Event.kernelCall?] at hc1
      subst hc1
      exact ⟨hS, hma, hbase⟩
    · intro e he
      simp at he
      rcases he with rfl | rfl | rfl | rfl | rfl | rfl <;> exact ⟨rfl, rfl, rfl⟩
    · simp [kernelCalls, Event.kernelCall?, hname]

/-- A concrete registry name is the name of a registry entry other than
`"all"`. -/
theorem concrete_registered (n : String) (hn : n ∈ concreteNames) :
    ∃ b ∈ benchmarks, b.name = n ∧ b.name ≠ "all" := by
  simp only [concreteNames, List.mem_cons, List.mem_singleton, List.not_mem_nil,
    or_false] at hn
  rcases hn with rfl | rfl | rfl | rfl | rfl | rfl | rfl
  · exact ⟨⟨"bfs", 4⟩, by decide, rfl, by decide⟩
  · exact ⟨⟨"bfs-do", 4⟩, by decide, rfl, by decide⟩
  · exact ⟨⟨"betweenness", 2⟩, by decide, rfl, by decide⟩
  · exact ⟨⟨"clustering", 1⟩, by decide, rfl, by decide⟩
  · exact ⟨⟨"components", 1⟩, by decide, rfl, by decide⟩
  · exact ⟨⟨"kcore", 2⟩, by decide, rfl, by decide⟩
  · exact ⟨⟨"pagerank", 2⟩, by decide, rfl, by decide⟩

/-- `run_benchmark` under a concrete registered name is one kernel dispatch. -/
theorem run_benchmark_concrete (env : Env σ δ) (b : benchmark) (hb : b ∈ benchmarks)
    (hne : b.name ≠ "all") (S : Nat) (nv : Int) (buf : Nat) (ma trial : Int) (w : σ) :
    ConcreteRun env b.name b.data_per_vertex S buf ma trial w
      (run_benchmark env b.name S nv buf ma trial w) :=
  run_concrete env (run_benchmark_fuel env 1) b hb hne S nv buf ma trial w

/-- Calls of `run_benchmark` on concrete names, one after the other: all
return, and the kernels run are those of the names, in order. -/
theorem runEach_dispatched (env : Env σ δ) (S : Nat) (nv : Int) (buf : Nat) (ma trial : Int) :
    ∀ (names : List String), (∀ n ∈ names, n ∈ concreteNames) → ∀ w : σ,
      (runEach env names S nv buf ma trial w).res = Res.ok () ∧
      Dispatched S buf ma trial (runEach env names S nv buf ma trial w).trace ∧
      (kernelCalls (runEach env names S nv buf ma trial w).trace).map
        KernelCall.benchmarkName = names := by
  intro names
  induction names with
  | nil =>
    intro _ w
    exact ⟨rfl, dispatched_nil _ _ _ _, rfl⟩
  | cons n ns ih =>
    intro hn w
    obtain ⟨b, hb, rfl, hne⟩ := concrete_registered n (hn n (List.mem_cons_self _ _))
    obtain ⟨h1, h2, h3⟩ := dispatched_of_concrete env _ _ S buf ma trial w _
      (run_benchmark_concrete env b hb hne S nv buf ma trial w)
    obtain ⟨i1, i2, i3⟩ := ih (fun m hm => hn m (List.mem_cons_of_mem _ hm))
      (run_benchmark env b.name S nv buf ma trial w).world
    unfold runEach
    rw [bind_apply_of_ok h1]
    refine ⟨i1, dispatched_append _ _ _ _ _ _ h2 i2, ?_⟩
    simp only
    rw [kernelCalls_append, List.map_append, h3, i3]
    rfl

/-- Messages and capacity queries may precede a dispatch. -/
theorem dispatched_cons (S buf : Nat) (ma trial : Int) (e : Event) (tr : List Event)
    (he : (∃ fmt a, e = Event.dynograph_message fmt a) ∨ (∃ S1 r, e = Event.stinger_max_nv S1 r))
    (h : Dispatched S buf ma trial tr) : Dispatched S buf ma trial (e :: tr) := by
  have hsingle : Dispatched S buf ma trial [e] := by
    rcases he with ⟨fmt, a, rfl⟩ | ⟨S1, r, rfl⟩
    · refine ⟨by simp [wellBracketed, regionRun, regionStep], by
        simp [regionCount, kernelCalls, Event.isRegionBegin, Event.kernelCall?], ?_, ?_⟩
      · intro c hc
        simp [kernelCalls, Event.kernelCall?] at hc
      · intro e he
        simp at he
        subst he
        exact ⟨rfl, rfl, rfl⟩
    · refine ⟨by simp [wellBracketed, regionRun, regionStep], by
        simp [regionCount, kernelCalls, Event.isRegionBegin, Event.kernelCall?], ?_, ?_⟩
      · intro c hc
        simp [kernelCalls, Event.kernelCall?] at hc
      · intro e he
        simp at he
        subst he
        exact ⟨rfl, rfl, rfl⟩
  exact dispatched_append S buf ma trial [e] tr hsingle h

/-- The outcome of `run_benchmark "all"` in terms of the seven separate
calls. -/
theorem run_benchmark_all_apply (env : Env σ δ) (S : Nat) (nv : Int) (buf : Nat)
    (ma trial : Int) (w : σ) :
    run_benchmark env "all" S nv buf ma trial w =
      ⟨(runEach env concreteNames S nv buf ma trial w).res,
        (runEach env concreteNames S nv buf ma trial w).world,
        Event.dynograph_message "Running %s..." [FmtArg.str "all"] ::
          Event.stinger_max_nv S (env.stinger_max_nv w S) ::
            (runEach env concreteNames S nv buf ma trial w).trace⟩ := by
  rw [run_benchmark_all]
  rfl

/-- `run_benchmark` under any registered name returns and keeps the dispatch
discipline. -/
theorem run_benchmark_registered (env : Env σ δ) (b : benchmark) (hb : b ∈ benchmarks)
    (S : Nat) (nv : Int) (buf : Nat) (ma trial : Int) (w : σ) :
    (run_benchmark env b.name S nv buf ma trial w).res = Res.ok () ∧
      Dispatched S buf ma trial (run_benchmark env b.name S nv buf ma trial w).trace := by
  by_cases hall : b.name = "all"
  · rw [hall, run_benchmark_all_apply]
    obtain ⟨h1, h2, _⟩ := runEach_dispatched env S nv buf ma trial concreteNames
      (fun n hn => hn) w
    exact ⟨h1, dispatched_cons _ _ _ _ _ _ (Or.inl ⟨_, _, rfl⟩)
      (dispatched_cons _ _ _ _ _ _ (Or.inr ⟨_, _, rfl⟩) h2)⟩
  · obtain ⟨h1, h2, _⟩ := dispatched_of_concrete env _ _ S buf ma trial w _
      (run_benchmark_concrete env b hb hall S nv buf ma trial w)
    exact ⟨h1, h2⟩

/-- Under a name that is not in the registry `run_benchmark` reaches its
last branch and exits. -/
theorem run_benchmark_unregistered (env : Env σ δ) (name : String)
    (hname : name ∉ benchmarks.map (fun b => b.name))
    (S : Nat) (nv : Int) (buf : Nat) (ma trial : Int) (w : σ) :
    run_benchmark env name S nv buf ma trial w =
      ⟨Res.exit, w,
        [Event.dynograph_message "Running %s..." [FmtArg.str name],
          Event.stinger_max_nv S (env.stinger_max_nv w S),
          Event.dynograph_error "Algorithm %s not implemented!" [FmtArg.str name]]⟩ := by
  simp only [benchmarks, List.map_cons, List.map_nil, List.mem_cons, List.mem_singleton,
    List.not_mem_nil, or_false, not_or] at hname
  obtain ⟨h0, h1, h2, h3, h4, h5, h6, h7⟩ := hname
  show run_benchmark_body env (run_benchmark_fuel env 1) name S nv buf ma trial w = _
  unfold run_benchmark_body dynograph_message
  simp only [bind_emit_apply, bind_query_apply, if_neg h0, if_neg h1, if_neg h2, if_neg h3,
    if_neg h4, if_neg h5, if_neg h6, if_neg h7, error_apply]

/-- The recursion bound of the model is never reached: `run_benchmark`
returns or exits, for every name. -/
theorem run_benchmark_total (env : Env σ δ) (name : String)
    (S : Nat) (nv : Int) (buf : Nat) (ma trial : Int) (w : σ) :
    (run_benchmark env name S nv buf ma trial w).res ≠ Res.outOfFuel := by
  by_cases hname : name ∈ benchmarks.map (fun b => b.name)
  · obtain ⟨b, hb, rfl⟩ := List.mem_map.mp hname
    rw [(run_benchmark_registered env b hb S nv buf ma trial w).1]
    exact fun h => Res.noConfusion h
  · rw [run_benchmark_unregistered env name hname]
    exact fun h => Res.noConfusion h

/-- Store calls of a batch are store insertions. -/
theorem insertCall_isInsert (S : Nat) (d : Int) (e : dynograph_edge) :
    (insertCall S d e).isInsert = true := by
  unfold insertCall
  split <;> rfl

theorem insertCalls_map (S : Nat) (d : Int) (edges : List dynograph_edge) :
    insertCalls (edges.map (insertCall S d)) = edges.map (insertCall S d) := by
  unfold insertCalls
  rw [List.filter_eq_self]
  intro e he
  obtain ⟨x, _, rfl⟩ := List.mem_map.mp he
  exact insertCall_isInsert S d x

/-- Inside an insertion region the store calls of a batch are in place. -/
theorem regionRun_inserts (S : Nat) (d trial : Int) (rest : List Event) :
    ∀ edges : List dynograph_edge,
      regionRun UnitKind.inserts trial RegionState.begun
        (edges.map (insertCall S d) ++ rest) =
      regionRun UnitKind.inserts trial RegionState.begun rest := by
  intro edges
  induction edges with
  | nil => rfl
  | cons e es ih =>
    simp only [List.map_cons, List.cons_append, regionRun]
    have hstep : regionStep UnitKind.inserts trial RegionState.begun (insertCall S d e) =
        some RegionState.begun := by
      unfold insertCall
      split <;> simp [regionStep]
    rw [hstep]
    exact ih

/-- The dispatch of a concrete name does not announce `"all"`. -/
theorem concrete_no_all_message (env : Env σ δ) (name : String) (hne : name ≠ "all")
    (dpv : Int) (S buf : Nat) (ma trial : Int) (w : σ) (o : Outcome σ Unit)
    (h : ConcreteRun env name dpv S buf ma trial w o) :
    Event.dynograph_message "Running %s..." [FmtArg.str "all"] ∉ o.trace := by
  obtain ⟨c, warn, _, _, _, _, hwarn, rfl⟩ := h
  rcases hwarn with rfl | ⟨levels, rfl⟩
  · simp [hne, Ne.symm hne]
  · simp [hne, Ne.symm hne, bfsWarning]

theorem runEach_no_all_message (env : Env σ δ) (S : Nat) (nv : Int) (buf : Nat)
    (ma trial : Int) :
    ∀ (names : List String), (∀ n ∈ names, n ∈ concreteNames) → ∀ w : σ,
      Event.dynograph_message "Running %s..." [FmtArg.str "all"] ∉
        (runEach env names S nv buf ma trial w).trace := by
  intro names
  induction names with
  | nil =>
    intro _ w h
    simp [runEach] at h
  | cons n ns ih =>
    intro hn w
    obtain ⟨b, hb, rfl, hne⟩ := concrete_registered n (hn n (List.mem_cons_self _ _))
    have hrun := run_benchmark_concrete env b hb hne S nv buf ma trial w
    obtain ⟨h1, _, _⟩ := dispatched_of_concrete env _ _ S buf ma trial w _ hrun
    unfold runEach
    rw [bind_apply_of_ok h1]
    simp only [List.mem_append, not_or]
    exact ⟨concrete_no_all_message env _ hne _ S buf ma trial w _ hrun,
      ih (fun m hm => hn m (List.mem_cons_of_mem _ hm)) _⟩

/-! ### Command line and registry lookup -/

/-- The three outcomes of `get_args`. -/
theorem get_args_run (argv : List String) (w : σ) :
    get_args argv w =
      (if argv.length ≠ 6 then
        ⟨Res.exit, w, [Event.dynograph_error
          "Usage: alg_name input_path num_batches window_size num_trials \n" []]⟩
      else if atoll (argv.getD 3 "") < 1 ∨ atoll (argv.getD 4 "") < 1 ∨
          atoll (argv.getD 5 "") < 1 then
        ⟨Res.exit, w, [Event.dynograph_error
          "num_batches, window_size, and num_trials must be positive" []]⟩
      else
        ⟨Res.ok { alg_name := argv.getD 1 "", input_path := argv.getD 2 "",
                  window_size := atoll (argv.getD 4 ""),
                  num_batches := atoll (argv.getD 3 ""),
                  num_trials := atoll (argv.getD 5 "") }, w, []⟩) := by
  unfold get_args
  by_cases h6 : argv.length ≠ 6
  · simp only [if_pos h6]
    rfl
  · by_cases hpos : atoll (argv.getD 3 "") < 1 ∨ atoll (argv.getD 4 "") < 1 ∨
        atoll (argv.getD 5 "") < 1
    · simp only [if_neg h6, if_pos hpos]
      rfl
    · simp only [if_neg h6, if_neg hpos]
      rfl

/-- A well-formed command line is returned as parsed. -/
theorem get_args_valid (prog name path a3 a4 a5 : String) (h3 : 1 ≤ atoll a3)
    (h4 : 1 ≤ atoll a4) (h5 : 1 ≤ atoll a5) (w : σ) :
    get_args [prog, name, path, a3, a4, a5] w =
      ⟨Res.ok { alg_name := name, input_path := path, window_size := atoll a4,
                num_batches := atoll a3, num_trials := atoll a5 }, w, []⟩ := by
  rw [get_args_run]
  have hpos : ¬ (atoll a3 < 1 ∨ atoll a4 < 1 ∨ atoll a5 < 1) := by omega
  simp only [List.length_cons, List.length_nil, List.getD_cons_succ, List.getD_cons_zero]
  rw [if_neg (by decide), if_neg hpos]

theorem get_benchmark_unregistered (name : String)
    (h : name ∉ benchmarks.map (fun b => b.name)) (w : σ) :
    get_benchmark name w =
      ⟨Res.exit, w, [Event.dynograph_error "Benchmark \x27%s\x27 does not exist!"
        [FmtArg.str name]]⟩ := by
  have hnone : benchmarks.find? (fun b => b.name = name) = none := by
    rw [List.find?_eq_none]
    intro b hb hname
    exact h (List.mem_map.mpr ⟨b, hb, of_decide_eq_true hname⟩)
  unfold get_benchmark
  rw [get_benchmark_loop_zero, hnone]
  rfl

theorem get_benchmark_registered (b : benchmark) (hb : b ∈ benchmarks) (w : σ) :
    get_benchmark b.name w = ⟨Res.ok b, w, []⟩ := by
  unfold get_benchmark
  rw [get_benchmark_loop_zero, find_registered b hb]
  rfl

/-! ### The trial and batch loops of `main` -/

theorem bind_apply_of_eq {α β : Type} {m : M σ α} {w w1 : σ} {a : α} {t1 : List Event}
    (h : m w = ⟨Res.ok a, w1, t1⟩) (f : α → M σ β) :
    (m >>= f) w = ⟨(f a w1).res, (f a w1).world, t1 ++ (f a w1).trace⟩ := by
  have hres : (m w).res = Res.ok a := by rw [h]
  rw [bind_apply_of_ok hres, h]

theorem bind_apply_of_exit {α β : Type} {m : M σ α} {w w1 : σ} {t1 : List Event}
    (h : m w = ⟨Res.exit, w1, t1⟩) (f : α → M σ β) :
    (m >>= f) w = ⟨Res.exit, w1, t1⟩ := by
  have hres : (m w).res = Res.exit := by rw [h]
  show M.bind m f w = _
  rw [M.bind_of_exit hres, h]

/-- `main` with its two loop bodies named. -/
theorem main_eq (env : Env σ δ) (argv : List String) :
    main env argv =
      (get_args argv >>= fun args =>
        answer (env.dynograph_load_dataset args.input_path args.num_batches)
          (Event.dynograph_load_dataset args.input_path args.num_batches) >>= fun dataset =>
        get_benchmark args.alg_name >>= fun b =>
        forLoop 0 args.num_trials (trialBody env dataset b args.window_size) >>= fun _ =>
        emit Event.dynograph_free_dataset >>= fun _ => pure 0) := rfl

/-- A counting loop whose body always returns makes the calls of its
iterations one after the other, in increasing order of the index. -/
theorem forLoop_segments (P : Int → List Event → Prop) (body : Int → M σ Unit)
    (hbody : ∀ i w, (body i w).res = Res.ok () ∧ P i (body i w).trace) (hi : Int) :
    ∀ (k : Nat) (i : Int) (w : σ), (hi - i).toNat = k →
      (forLoop i hi body w).res = Res.ok () ∧
      Segments P k i (forLoop i hi body w).trace := by
  intro k
  induction k with
  | zero =>
    intro i w h
    have hlt : ¬ i < hi := by omega
    rw [forLoop_done _ _ _ hlt]
    exact ⟨rfl, rfl⟩
  | succ k ih =>
    intro i w h
    have hlt : i < hi := by omega
    rw [forLoop_step _ _ _ hlt w (hbody i w).1]
    obtain ⟨h1, h2⟩ := ih (i + 1) (body i w).world (by omega)
    exact ⟨h1, _, _, rfl, (hbody i w).2, h2⟩

theorem print_graph_stats_run (env : Env σ δ) (S : Nat) (nv ma : Int) (w : σ) :
    (print_graph_stats env S nv ma w).res = Res.ok () ∧
    (∀ e ∈ (print_graph_stats env S nv ma w).trace,
      e.isCalloc = false ∧ e.kernelCall? = none ∧ e.isInsert = false) := by
  unfold print_graph_stats printf
  simp only [bind_call_apply, bind_query_apply, bind_emit_apply, bind_getWorld_apply,
    effect_apply, true_and]
  intro e he
  simp only [List.mem_cons, List.mem_singleton, List.not_mem_nil, or_false] at he
  rcases he with rfl | rfl | rfl | rfl | rfl | rfl | rfl | rfl | rfl | rfl | rfl | rfl <;>
    exact ⟨rfl, rfl, rfl⟩

theorem wrap_vertex_count (x : Int) (h : InI64 x) : wrapI64 (toU64 x) = x := by
  obtain ⟨h1, h2⟩ := h
  unfold wrapI64 toU64
  omega

/-- One iteration of the batch loop returns and makes the calls of
`BatchSteps`. -/
theorem batchBody_run (env : Env σ δ) (dataset : δ) (b : benchmark) (hb : b ∈ benchmarks)
    (hv : ∀ w S, InI64 (env.stinger_max_active_vertex w S + 1))
    (window_size t : Int) (S buf : Nat) (i : Int) (w : σ) :
    (batchBody env dataset b window_size t S buf i w).res = Res.ok () ∧
    BatchSteps env dataset b.name window_size t S buf i
      (batchBody env dataset b window_size t S buf i w).trace := by
  have hins := (insert_batch_run env S (env.dynograph_get_batch dataset i) t w).1
  unfold batchBody dynograph_message
  simp only [bind_answer_apply, bind_emit_apply]
  rw [bind_apply_of_ok hins]
  simp only [bind_answer_apply, bind_query_apply]
  rw [wrap_vertex_count _ (hv _ S)]
  have hrun := (run_benchmark_registered env b hb S
    (env.stinger_max_active_vertex
      (insert_batch env S (env.dynograph_get_batch dataset i) t w).world S + 1) buf
    (env.dynograph_get_timestamp_for_window dataset i window_size) t
    (insert_batch env S (env.dynograph_get_batch dataset i) t w).world).1
  rw [bind_apply_of_ok hrun]
  refine ⟨?_, w, ?_⟩
  · have hstats := fun nv ma w1 => (print_graph_stats_run env S nv ma w1).1
    dsimp only
    exact hstats _ _ _
  · simp only [List.cons_append, List.nil_append, List.append_assoc]

/-- One iteration of the trial loop returns and makes the calls of
`TrialSteps`. -/
theorem trialBody_run (env : Env σ δ) (dataset : δ) (b : benchmark) (hb : b ∈ benchmarks)
    (hv : ∀ w S, InI64 (env.stinger_max_active_vertex w S + 1))
    (window_size t : Int) (w : σ) :
    (trialBody env dataset b window_size t w).res = Res.ok () ∧
    TrialSteps env dataset b window_size t (trialBody env dataset b window_size t w).trace := by
  unfold trialBody
  simp only [bind_call_apply, bind_query_apply]
  obtain ⟨h1, h2⟩ := forLoop_segments
    (BatchSteps env dataset b.name window_size t (env.stinger_new w).1
      (env.xcalloc (env.stinger_new w).2 (toU64 (8 * b.data_per_vertex))
        (toU64 (env.stinger_max_nv (env.stinger_new w).2 (env.stinger_new w).1))).1)
    (batchBody env dataset b window_size t (env.stinger_new w).1
      (env.xcalloc (env.stinger_new w).2 (toU64 (8 * b.data_per_vertex))
        (toU64 (env.stinger_max_nv (env.stinger_new w).2 (env.stinger_new w).1))).1)
    (fun i w1 => batchBody_run env dataset b hb hv window_size t _ _ i w1)
    (env.num_batches dataset) (env.num_batches dataset).toNat 0
    (env.xcalloc (env.stinger_new w).2 (toU64 (8 * b.data_per_vertex))
      (toU64 (env.stinger_max_nv (env.stinger_new w).2 (env.stinger_new w).1))).2
    (by simp)
  rw [bind_apply_of_ok h1]
  simp only [bind_effect_apply, effect_apply]
  refine ⟨trivial, w, _, ?_, h2⟩
  simp only [List.cons_append, List.nil_append, List.append_assoc]

/-- The calls of `main` on a well-formed command line naming a registered
benchmark. -/
theorem main_steps (env : Env σ δ) (prog path a3 a4 a5 : String) (b : benchmark)
    (hb : b ∈ benchmarks) (h3 : 1 ≤ atoll a3) (h4 : 1 ≤ atoll a4) (h5 : 1 ≤ atoll a5)
    (hv : ∀ w S, InI64 (env.stinger_max_active_vertex w S + 1)) (w : σ) :
    (main env [prog, b.name, path, a3, a4, a5] w).res = Res.ok 0 ∧
    ∃ body : List Event,
      (main env [prog, b.name, path, a3, a4, a5] w).trace =
        Event.dynograph_load_dataset path (atoll a3) ::
          (body ++ [Event.dynograph_free_dataset]) ∧
      Segments
        (TrialSteps env (env.dynograph_load_dataset path (atoll a3)) b (atoll a4))
        (atoll a5).toNat 0 body := by
  rw [main_eq, bind_apply_of_eq (get_args_valid prog b.name path a3 a4 a5 h3 h4 h5 w)]
  simp only [bind_answer_apply]
  rw [bind_apply_of_eq (get_benchmark_registered b hb w)]
  obtain ⟨h1, h2⟩ := forLoop_segments
    (TrialSteps env (env.dynograph_load_dataset path (atoll a3)) b (atoll a4))
    (trialBody env (env.dynograph_load_dataset path (atoll a3)) b (atoll a4))
    (fun t w1 => trialBody_run env _ b hb hv (atoll a4) t w1)
    (atoll a5) (atoll a5).toNat 0 w (by simp)
  rw [bind_apply_of_ok h1]
  simp only [bind_emit_apply, pure_apply, List.nil_append]
  exact ⟨trivial, _, rfl, h2⟩

/-- With an unregistered name `main` loads the dataset, reports the unknown
benchmark and exits. -/
theorem main_unregistered (env : Env σ δ) (prog name path a3 a4 a5 : String)
    (hname : name ∉ benchmarks.map (fun b => b.name))
    (h3 : 1 ≤ atoll a3) (h4 : 1 ≤ atoll a4) (h5 : 1 ≤ atoll a5) (w : σ) :
    main env [prog, name, path, a3, a4, a5] w =
      ⟨Res.exit, w,
        [Event.dynograph_load_dataset path (atoll a3),
          Event.dynograph_error "Benchmark \x27%s\x27 does not exist!" [FmtArg.str name]]⟩ := by
  rw [main_eq, bind_apply_of_eq (get_args_valid prog name path a3 a4 a5 h3 h4 h5 w)]
  simp only [bind_answer_apply]
  rw [bind_apply_of_exit (get_benchmark_unregistered name hname w)]
  rfl

/-! ### The scratch buffer -/

theorem Segments.mono {P Q : Int → List Event → Prop} (h : ∀ i tr, P i tr → Q i tr) :
    ∀ (k : Nat) (i : Int) (tr : List Event), Segments P k i tr → Segments Q k i tr := by
  intro k
  induction k with
  | zero =>
    intro i tr hs
    exact hs
  | succ k ih =>
    intro i tr hs
    obtain ⟨a, rest, htr, ha, hrest⟩ := hs
    exact ⟨a, rest, htr, h i a ha, ih (i + 1) rest hrest⟩

theorem Segments.forall_mem {P : Int → List Event → Prop} {R : Event → Prop}
    (h : ∀ i tr, P i tr → ∀ e ∈ tr, R e) :
    ∀ (k : Nat) (i : Int) (tr : List Event), Segments P k i tr → ∀ e ∈ tr, R e := by
  intro k
  induction k with
  | zero =>
    intro i tr hs e he
    rw [show tr = [] from hs] at he
    simp at he
  | succ k ih =>
    intro i tr hs e he
    obtain ⟨a, rest, htr, ha, hrest⟩ := hs
    rw [htr, List.mem_append] at he
    rcases he with he | he
    · exact h i a ha e he
    · exact ih (i + 1) rest hrest e he

/-- No call of a batch iteration allocates a buffer, and its kernel calls
work on sub-arrays of the buffer handed to the iteration. -/
theorem batchSteps_events (env : Env σ δ) (dataset : δ) (b : benchmark) (hb : b ∈ benchmarks)
    (window_size t : Int) (S buf : Nat) (i : Int) (tr : List Event)
    (h : BatchSteps env dataset b.name window_size t S buf i tr) :
    ∀ e ∈ tr, e.isCalloc = false ∧
      ∀ c, e.kernelCall? = some c → ∀ p ∈ c.slots, p.base = buf := by
  obtain ⟨w1, rfl⟩ := h
  intro e he
  simp only [List.mem_append, List.mem_cons, List.mem_singleton, List.not_mem_nil,
    or_false] at he
  rcases he with (((((rfl | rfl) | he) | (rfl | rfl)) | he) | he)
  · exact ⟨rfl, fun c hc => by simp [Event.kernelCall?] at hc⟩
  · exact ⟨rfl, fun c hc => by simp [Event.kernelCall?] at hc⟩
  · rw [(insert_batch_run env S _ t w1).2] at he
    simp only [List.mem_append, List.mem_cons, List.mem_singleton, List.mem_map,
      List.not_mem_nil, or_false] at he
    rcases he with rfl | ⟨x, _, rfl⟩ | rfl
    · exact ⟨rfl, fun c hc => by simp [Event.kernelCall?] at hc⟩
    · unfold insertCall
      split
      · exact ⟨rfl, fun c hc => by simp [Event.kernelCall?] at hc⟩
      · exact ⟨rfl, fun c hc => by simp [Event.kernelCall?] at hc⟩
    · exact ⟨rfl, fun c hc => by simp [Event.kernelCall?] at hc⟩
  · exact ⟨rfl, fun c hc => by simp [Event.kernelCall?] at hc⟩
  · exact ⟨rfl, fun c hc => by simp [Event.kernelCall?] at hc⟩
  · obtain ⟨_, _, _, hk, hall⟩ := run_benchmark_registered env b hb S
      (env.stinger_max_active_vertex
        (insert_batch env S (env.dynograph_get_batch dataset i) t w1).world S + 1)
      buf (env.dynograph_get_timestamp_for_window dataset i window_size) t
      (insert_batch env S (env.dynograph_get_batch dataset i) t w1).world
    refine ⟨(hall e he).2.1, ?_⟩
    intro c hc
    have hmem : c ∈ kernelCalls (run_benchmark env b.name S
        (env.stinger_max_active_vertex
          (insert_batch env S (env.dynograph_get_batch dataset i) t w1).world S + 1)
        buf (env.dynograph_get_timestamp_for_window dataset i window_size) t
        (insert_batch env S (env.dynograph_get_batch dataset i) t w1).world).trace := by
      unfold kernelCalls
      rw [List.mem_filterMap]
      exact ⟨e, he, hc⟩
    exact (hk c hmem).2.2
  · obtain ⟨_, hstats⟩ := print_graph_stats_run env S
      (env.stinger_max_active_vertex
        (insert_batch env S (env.dynograph_get_batch dataset i) t w1).world S + 1)
      (env.dynograph_get_timestamp_for_window dataset i window_size)
      (run_benchmark env b.name S
        (env.stinger_max_active_vertex
          (insert_batch env S (env.dynograph_get_batch dataset i) t w1).world S + 1)
        buf (env.dynograph_get_timestamp_for_window dataset i window_size) t
        (insert_batch env S (env.dynograph_get_batch dataset i) t w1).world).world
    refine ⟨(hstats e he).1, ?_⟩
    intro c hc
    rw [(hstats e he).2.1] at hc
    exact Option.noConfusion hc

/-- The calls of a trial, read for the scratch buffer. -/
theorem trialSteps_buffer (env : Env σ δ) (dataset : δ) (b : benchmark) (hb : b ∈ benchmarks)
    (hcap : ∀ w S, 0 ≤ env.stinger_max_nv w S ∧ env.stinger_max_nv w S < (2 : Int) ^ 64)
    (window_size t : Int) (tr : List Event)
    (h : TrialSteps env dataset b window_size t tr) : TrialBuffer env b tr := by
  have hdpv : toU64 (8 * b.data_per_vertex) = 8 * b.data_per_vertex := by
    have hall : ∀ c ∈ benchmarks, toU64 (8 * c.data_per_vertex) = 8 * c.data_per_vertex := by
      decide
    exact hall b hb
  obtain ⟨w0, body, htr, hseg⟩ := h
  have hM : ∀ w S, toU64 (env.stinger_max_nv w S) = env.stinger_max_nv w S := by
    intro w S
    obtain ⟨h1, h2⟩ := hcap w S
    unfold toU64
    omega
  rw [hdpv, hM] at htr hseg
  have hev := Segments.forall_mem
    (fun i a ha => batchSteps_events env dataset b hb window_size t _ _ i a ha) _ _ _ hseg
  refine ⟨w0, body, htr, fun e he => (hev e he).1, ?_⟩
  intro c hc
  unfold kernelCalls at hc
  rw [List.mem_filterMap] at hc
  obtain ⟨e, he, hec⟩ := hc
  exact (hev e he).2 c hec

end Lemmas

/-! ## The properties -/

section Claims
variable {σ δ : Type}

/-- C5: in the registry the entry `"all"` has `data_per_vertex = 4`, and 4 is
the maximum of `data_per_vertex` over the seven other entries bfs, bfs-do,
betweenness, clustering, components, kcore, pagerank: none of them needs
more, and one of them needs as much. -/
theorem all_data_per_vertex_is_max :
    (benchmarks.filter (fun b => b.name = "all")).map (fun b => b.data_per_vertex) = [4] ∧
    (benchmarks.filter (fun b => b.name ≠ "all")).map (fun b => b.name) =
      ["bfs", "bfs-do", "betweenness", "clustering", "components", "kcore", "pagerank"] ∧
    (∀ b ∈ benchmarks.filter (fun b => b.name ≠ "all"), b.data_per_vertex ≤ 4) ∧
    (∃ b ∈ benchmarks.filter (fun b => b.name ≠ "all"), b.data_per_vertex = 4) := by
  decide

/-- C8: `get_benchmark name` exits with the error
`Benchmark '%s' does not exist!` exactly when `name` is none of the eight
registry names; for the name of a registry entry it returns that entry (name
and `data_per_vertex`), makes no call and leaves the world alone. -/
theorem get_benchmark_spec (name : String) (w : σ) :
    benchmarks.map (fun b => b.name) =
      ["all", "bfs", "bfs-do", "betweenness", "clustering", "components", "kcore",
        "pagerank"] ∧
    ((get_benchmark name w).res = Res.exit ↔ name ∉ benchmarks.map (fun b => b.name)) ∧
    (name ∉ benchmarks.map (fun b => b.name) →
      get_benchmark name w =
        ⟨Res.exit, w, [Event.dynograph_error "Benchmark \x27%s\x27 does not exist!"
          [FmtArg.str name]]⟩) ∧
    (∀ b ∈ benchmarks, b.name = name → get_benchmark name w = ⟨Res.ok b, w, []⟩) := by
  have hsome : ∀ b ∈ benchmarks, b.name = name → get_benchmark name w = ⟨Res.ok b, w, []⟩ := by
    intro b hb hname
    subst hname
    exact get_benchmark_registered b hb w
  refine ⟨by decide, ⟨?_, ?_⟩, fun h => get_benchmark_unregistered name h w, hsome⟩
  · intro hres hmem
    obtain ⟨b, hb, hname⟩ := List.mem_map.mp hmem
    rw [hsome b hb hname] at hres
    exact Res.noConfusion hres
  · intro h
    rw [get_benchmark_unregistered name h w]

/-- C8, at the input `"kcore"` and at the unregistered input `"foo"`. -/
theorem get_benchmark_spec_witness :
    (get_benchmark "kcore" (0 : Nat)) = ⟨Res.ok ⟨"kcore", 2⟩, 0, []⟩ ∧
    (get_benchmark "foo" (0 : Nat)).res = Res.exit :=
  ⟨(get_benchmark_spec "kcore" (0 : Nat)).2.2.2 ⟨"kcore", 2⟩ (by decide) rfl,
   (get_benchmark_spec "foo" (0 : Nat)).2.1.mpr (by decide)⟩

/-- C9 as stated fails: the `num_batches` argument `"1.5"` is not a positive
integer (while `"2"` and `"3"` are), yet `get_args` does not exit; `atoll`
reads the leading `1` and the arguments are accepted with `num_batches = 1`. -/
theorem get_args_accepts_non_integer :
    isPositiveIntegerArg "2" = true ∧ isPositiveIntegerArg "3" = true ∧
    isPositiveIntegerArg "1.5" = false ∧
    (get_args ["dynograph", "bfs", "graph.bin", "1.5", "2", "3"] ()).res =
      Res.ok { alg_name := "bfs", input_path := "graph.bin", window_size := 2,
               num_batches := 1, num_trials := 3 } := by
  decide

/-- C9, amended: `get_args` exits with the usage error when `argc ≠ 6`; with
six entries it exits with the `must be positive` error when the `atoll` value
of argument 3, 4 or 5 is below 1; otherwise it returns without any call the
record with `alg_name`, `input_path` taken from positions 1 and 2 and
`num_batches`, `window_size`, `num_trials` the `atoll` values of positions 3,
4 and 5, each of them at least 1. -/
theorem get_args_spec (argv : List String) (w : σ) :
    get_args argv w =
      (if argv.length ≠ 6 then
        ⟨Res.exit, w, [Event.dynograph_error
          "Usage: alg_name input_path num_batches window_size num_trials \n" []]⟩
      else if atoll (argv.getD 3 "") < 1 ∨ atoll (argv.getD 4 "") < 1 ∨
          atoll (argv.getD 5 "") < 1 then
        ⟨Res.exit, w, [Event.dynograph_error
          "num_batches, window_size, and num_trials must be positive" []]⟩
      else
        ⟨Res.ok { alg_name := argv.getD 1 "", input_path := argv.getD 2 "",
                  window_size := atoll (argv.getD 4 ""),
                  num_batches := atoll (argv.getD 3 ""),
                  num_trials := atoll (argv.getD 5 "") }, w, []⟩) ∧
    (∀ a, (get_args argv w).res = Res.ok a →
      argv.length = 6 ∧ 1 ≤ a.num_batches ∧ 1 ≤ a.window_size ∧ 1 ≤ a.num_trials) := by
  have heq := get_args_run argv w
  refine ⟨heq, ?_⟩
  intro a ha
  rw [heq] at ha
  by_cases h6 : argv.length ≠ 6
  · rw [if_pos h6] at ha
    exact Res.noConfusion ha
  · by_cases hpos : atoll (argv.getD 3 "") < 1 ∨ atoll (argv.getD 4 "") < 1 ∨
        atoll (argv.getD 5 "") < 1
    · rw [if_neg h6, if_pos hpos] at ha
      exact Res.noConfusion ha
    · rw [if_neg h6, if_neg hpos] at ha
      injection ha with ha
      subst ha
      simp only [not_or, not_lt] at hpos
      exact ⟨not_not.mp h6, hpos.1, hpos.2.1, hpos.2.2⟩

/-- C2: `insert_batch` returns, and its store insertions are exactly one per
edge of the batch, each `insertCall S directed e`: edge type 0 and the src,
dst, weight and timestamp of the edge `e`, through `stinger_insert_edge` when
the flag is non-zero and through `stinger_insert_edge_pair` when it is zero.
So there are `k` of them for a batch of `k` edges, and as a multiset they are
the image of the batch, the same for every trial index and every world. -/
theorem insert_batch_store_calls (env : Env σ δ) (S : Nat) (batch : dynograph_edge_batch)
    (trial : Int) (w : σ) :
    (insert_batch env S batch trial w).res = Res.ok () ∧
    insertCalls (insert_batch env S batch trial w).trace =
      batch.edges.map (insertCall S batch.directed) ∧
    (insertCalls (insert_batch env S batch trial w).trace).length = batch.edges.length ∧
    ((insertCalls (insert_batch env S batch trial w).trace : List Event) : Multiset Event) =
      Multiset.map (insertCall S batch.directed) (batch.edges : Multiset dynograph_edge) ∧
    (∀ e : dynograph_edge, insertCall S batch.directed e =
      if batch.directed ≠ 0 then
        Event.stinger_insert_edge S 0 e.src e.dst e.weight e.timestamp
      else Event.stinger_insert_edge_pair S 0 e.src e.dst e.weight e.timestamp) ∧
    (∀ (trial1 : Int) (w1 : σ),
      insertCalls (insert_batch env S batch trial1 w1).trace =
        insertCalls (insert_batch env S batch trial w).trace) := by
  have key : ∀ (t : Int) (w0 : σ), insertCalls (insert_batch env S batch t w0).trace =
      batch.edges.map (insertCall S batch.directed) := by
    intro t w0
    rw [(insert_batch_run env S batch t w0).2]
    have h := insertCalls_map S batch.directed batch.edges
    unfold insertCalls at h ⊢
    rw [List.filter_cons, List.filter_append, h]
    simp [Event.isInsert]
  refine ⟨(insert_batch_run env S batch trial w).1, key trial w, ?_, ?_, fun _ => rfl, ?_⟩
  · rw [key trial w, List.length_map]
  · rw [key trial w]
    rfl
  · intro t w1
    rw [key t w1, key trial w]

/-- C3: `run_benchmark "all"` returns, and after its own progress message and
capacity query it makes exactly the calls of `run_benchmark` on bfs, bfs-do,
betweenness, clustering, components, kcore, pagerank (the registry without
`"all"`, in registry order) run one after the other with the same remaining
arguments: same trace, hence the same kernel calls with the same arguments
inside the same timing regions, and the same final world.  The seven kernels
run once each in that order, `"all"` is announced once only, and no
`dynograph_error` is reached. -/
theorem run_benchmark_all_refines (env : Env σ δ) (S : Nat) (nv : Int) (buf : Nat)
    (ma trial : Int) (w : σ) :
    concreteNames = (benchmarks.filter (fun b => b.name ≠ "all")).map (fun b => b.name) ∧
    (run_benchmark env "all" S nv buf ma trial w).res = Res.ok () ∧
    (runEach env concreteNames S nv buf ma trial w).res = Res.ok () ∧
    (run_benchmark env "all" S nv buf ma trial w).world =
      (runEach env concreteNames S nv buf ma trial w).world ∧
    (run_benchmark env "all" S nv buf ma trial w).trace =
      Event.dynograph_message "Running %s..." [FmtArg.str "all"] ::
        Event.stinger_max_nv S (env.stinger_max_nv w S) ::
          (runEach env concreteNames S nv buf ma trial w).trace ∧
    (run_benchmark env "all" S nv buf ma trial w).trace.filter Event.isMeasured =
      (runEach env concreteNames S nv buf ma trial w).trace.filter Event.isMeasured ∧
    kernelCalls (run_benchmark env "all" S nv buf ma trial w).trace =
      kernelCalls (runEach env concreteNames S nv buf ma trial w).trace ∧
    (kernelCalls (run_benchmark env "all" S nv buf ma trial w).trace).map
      KernelCall.benchmarkName =
        ["bfs", "bfs-do", "betweenness", "clustering", "components", "kcore", "pagerank"] ∧
    (run_benchmark env "all" S nv buf ma trial w).trace.count
      (Event.dynograph_message "Running %s..." [FmtArg.str "all"]) = 1 ∧
    (∀ e ∈ (run_benchmark env "all" S nv buf ma trial w).trace, e.isError = false) := by
  obtain ⟨h1, h2, h3⟩ := runEach_dispatched env S nv buf ma trial concreteNames
    (fun n hn => hn) w
  have hno := runEach_no_all_message env S nv buf ma trial concreteNames (fun n hn => hn) w
  rw [run_benchmark_all_apply]
  refine ⟨by decide, h1, h1, rfl, rfl, ?_, ?_, ?_, ?_, ?_⟩
  · simp [List.filter_cons, Event.isMeasured]
  · simp [kernelCalls, List.filterMap_cons, Event.kernelCall?]
  · have : kernelCalls (Event.dynograph_message "Running %s..." [FmtArg.str "all"] ::
        Event.stinger_max_nv S (env.stinger_max_nv w S) ::
          (runEach env concreteNames S nv buf ma trial w).trace) =
        kernelCalls (runEach env concreteNames S nv buf ma trial w).trace := by
      simp [kernelCalls, List.filterMap_cons, Event.kernelCall?]
    simp only
    rw [this, h3]
    rfl
  · simp only
    rw [List.count_cons_self, List.count_cons_of_ne (by simp), List.count_eq_zero_of_not_mem hno]
  · intro e he
    simp only [List.mem_cons] at he
    rcases he with rfl | rfl | he
    · rfl
    · rfl
    · exact (h2.2.2.2 e he).1

/-- C6: in the trace of `run_benchmark` under every registered name, `"all"`
included, the timing regions are paired and not nested, carry the trial id of
the call, and hold exactly one kernel call each and nothing else; every
kernel call lies in one of them (there are as many regions as kernel calls).
In the trace of `insert_batch` there is one region, with the trial id of the
call, holding the store insertions of the batch and nothing else. -/
theorem timing_regions_well_formed (env : Env σ δ) (b : benchmark) (hb : b ∈ benchmarks)
    (S : Nat) (nv : Int) (buf : Nat) (ma trial : Int) (batch : dynograph_edge_batch)
    (w : σ) :
    wellBracketed UnitKind.kernel trial
      (run_benchmark env b.name S nv buf ma trial w).trace = true ∧
    regionCount (run_benchmark env b.name S nv buf ma trial w).trace =
      (kernelCalls (run_benchmark env b.name S nv buf ma trial w).trace).length ∧
    wellBracketed UnitKind.inserts trial (insert_batch env S batch trial w).trace = true ∧
    regionCount (insert_batch env S batch trial w).trace = 1 ∧
    (insert_batch env S batch trial w).trace =
      Event.hooks_region_begin trial ::
        (insertCalls (insert_batch env S batch trial w).trace ++
          [Event.hooks_region_end trial]) := by
  obtain ⟨_, h1, h2, _, _⟩ := run_benchmark_registered env b hb S nv buf ma trial w
  have hins := (insert_batch_run env S batch trial w).2
  have hcalls : insertCalls (insert_batch env S batch trial w).trace =
      batch.edges.map (insertCall S batch.directed) := by
    rw [hins]
    have h := insertCalls_map S batch.directed batch.edges
    unfold insertCalls at h ⊢
    rw [List.filter_cons, List.filter_append, h]
    simp [Event.isInsert]
  refine ⟨h1, h2, ?_, ?_, ?_⟩
  · rw [hins]
    simp only [wellBracketed, regionRun, regionStep, if_true, decide_eq_true_eq]
    rw [regionRun_inserts]
    simp [regionRun, regionStep]
  · rw [hins]
    unfold regionCount
    rw [List.countP_cons, List.countP_append, List.countP_eq_zero.mpr]
    · simp [Event.isRegionBegin]
    · intro e he
      obtain ⟨x, _, rfl⟩ := List.mem_map.mp he
      unfold insertCall
      split <;> simp [Event.isRegionBegin]
  · rw [hcalls, hins]

/-- C6 on the demo collaborators, for `"all"` and a batch of two edges. -/
theorem timing_regions_well_formed_witness :
    (⟨"all", 4⟩ : benchmark) ∈ benchmarks ∧
    wellBracketed UnitKind.kernel 0 (run_benchmark demoEnv "all" 1 3 7 0 0 0).trace = true ∧
    wellBracketed UnitKind.inserts 0
      (insert_batch demoEnv 1 ⟨[⟨0, 1, 1, 0⟩, ⟨1, 2, 1, 5⟩], 0⟩ 0 0).trace = true :=
  ⟨by decide,
    (timing_regions_well_formed demoEnv ⟨"all", 4⟩ (by decide) 1 3 7 0 0
      ⟨[⟨0, 1, 1, 0⟩, ⟨1, 2, 1, 5⟩], 0⟩ 0).1,
    (timing_regions_well_formed demoEnv ⟨"all", 4⟩ (by decide) 1 3 7 0 0
      ⟨[⟨0, 1, 1, 0⟩, ⟨1, 2, 1, 5⟩], 0⟩ 0).2.2.1⟩

/-- C1: on a command line with five arguments naming a registered benchmark
`b`, with `num_batches`, `window_size = W`, `num_trials = T` at least 1, and
collaborators whose vertex count fits `int64_t`, `main` returns 0 and its
calls after the lookup are: load the dataset, then for each trial
`t = 0, ..., T - 1` in this order the calls of `TrialSteps` - create a graph,
read its capacity, allocate the buffer, then for each batch index
`i = 0, ..., n - 1` in increasing order (`n` the number of batches of the
dataset) the calls of `BatchSteps` - get batch `i`, announce it, insert it
with `insert_batch`, compute the threshold `window_start(i, W)`, read the
highest active vertex, `run_benchmark` on `b` with that vertex id plus one,
the buffer, the threshold and `t`, `print_graph_stats` with the same vertex
count and threshold - then free the buffer and free the graph; finally free
the dataset.  So the kernels of batch `i` run after the insertions of the
batches up to `i` and before those of any later batch. -/
theorem main_call_sequence (env : Env σ δ) (prog path a3 a4 a5 : String) (b : benchmark)
    (hb : b ∈ benchmarks) (h3 : 1 ≤ atoll a3) (h4 : 1 ≤ atoll a4) (h5 : 1 ≤ atoll a5)
    (hv : ∀ w S, InI64 (env.stinger_max_active_vertex w S + 1)) (w : σ) :
    (main env [prog, b.name, path, a3, a4, a5] w).res = Res.ok 0 ∧
    ∃ body : List Event,
      (main env [prog, b.name, path, a3, a4, a5] w).trace =
        Event.dynograph_load_dataset path (atoll a3) ::
          (body ++ [Event.dynograph_free_dataset]) ∧
      Segments
        (TrialSteps env (env.dynograph_load_dataset path (atoll a3)) b (atoll a4))
        (atoll a5).toNat 0 body :=
  main_steps env prog path a3 a4 a5 b hb h3 h4 h5 hv w

/-- C1 on the demo collaborators: `components`, two batches, one trial. -/
theorem main_call_sequence_witness :
    (⟨"components", 1⟩ : benchmark) ∈ benchmarks ∧
    1 ≤ atoll "2" ∧ 1 ≤ atoll "1" ∧
    (∀ (w : Nat) (S : Nat), InI64 (demoEnv.stinger_max_active_vertex w S + 1)) ∧
    (main demoEnv ["dynograph", "components", "g.txt", "2", "1", "1"] 0).res = Res.ok 0 ∧
    ∃ body : List Event,
      (main demoEnv ["dynograph", "components", "g.txt", "2", "1", "1"] 0).trace =
        Event.dynograph_load_dataset "g.txt" (atoll "2") ::
          (body ++ [Event.dynograph_free_dataset]) ∧
      Segments
        (TrialSteps demoEnv (demoEnv.dynograph_load_dataset "g.txt" (atoll "2"))
          ⟨"components", 1⟩ (atoll "1"))
        (atoll "1").toNat 0 body :=
  ⟨by decide, by decide, by decide,
    fun w S => by simp only [InI64, demoEnv]; omega,
    main_call_sequence demoEnv "dynograph" "g.txt" "2" "1" "1" ⟨"components", 1⟩
      (by decide) (by decide) (by decide) (by decide)
      (fun w S => by simp only [InI64, demoEnv]; omega) 0⟩

/-- C4: under the hypotheses of C1 and a store capacity that fits `size_t`,
the calls of every trial are those of `TrialBuffer`: the graph is created,
its capacity `M = stinger_max_nv(S)` is read right after, and the buffer is
allocated once, by `xcalloc(8 * data_per_vertex(b), M)`, which is
`data_per_vertex(b) × M` zeroed elements of 8 bytes; no call of the batch
loop allocates a buffer, and every kernel call of the batch loop works on
sub-arrays of that same buffer, whatever vertex count it is given. -/
theorem scratch_buffer_size (env : Env σ δ) (prog path a3 a4 a5 : String) (b : benchmark)
    (hb : b ∈ benchmarks) (h3 : 1 ≤ atoll a3) (h4 : 1 ≤ atoll a4) (h5 : 1 ≤ atoll a5)
    (hv : ∀ w S, InI64 (env.stinger_max_active_vertex w S + 1))
    (hcap : ∀ w S, 0 ≤ env.stinger_max_nv w S ∧ env.stinger_max_nv w S < (2 : Int) ^ 64)
    (w : σ) :
    (∃ body : List Event,
      (main env [prog, b.name, path, a3, a4, a5] w).trace =
        Event.dynograph_load_dataset path (atoll a3) ::
          (body ++ [Event.dynograph_free_dataset]) ∧
      Segments (fun _ => TrialBuffer env b) (atoll a5).toNat 0 body) ∧
    (∀ M : Int, (8 * b.data_per_vertex) * M = 8 * (b.data_per_vertex * M)) := by
  obtain ⟨_, body, htr, hseg⟩ := main_steps env prog path a3 a4 a5 b hb h3 h4 h5 hv w
  refine ⟨⟨body, htr, ?_⟩, fun M => by ring⟩
  exact Segments.mono
    (fun t tr h => trialSteps_buffer env _ b hb hcap (atoll a4) t tr h) _ _ _ hseg

/-- C4 on the demo collaborators: `bfs`, one batch, two trials. -/
theorem scratch_buffer_size_witness :
    (⟨"bfs", 4⟩ : benchmark) ∈ benchmarks ∧
    1 ≤ atoll "1" ∧ 1 ≤ atoll "2" ∧
    (∀ (w : Nat) (S : Nat), InI64 (demoEnv.stinger_max_active_vertex w S + 1)) ∧
    (∀ (w : Nat) (S : Nat),
      0 ≤ demoEnv.stinger_max_nv w S ∧ demoEnv.stinger_max_nv w S < (2 : Int) ^ 64) ∧
    ∃ body : List Event,
      (main demoEnv ["dynograph", "bfs", "g.txt", "1", "1", "2"] 0).trace =
        Event.dynograph_load_dataset "g.txt" (atoll "1") ::
          (body ++ [Event.dynograph_free_dataset]) ∧
      Segments (fun _ => TrialBuffer demoEnv ⟨"bfs", 4⟩) (atoll "2").toNat 0 body :=
  ⟨by decide, by decide, by decide,
    fun w S => by simp only [InI64, demoEnv]; omega,
    fun w S => by simp only [demoEnv]; omega,
    (scratch_buffer_size demoEnv "dynograph" "g.txt" "1" "1" "2" ⟨"bfs", 4⟩
      (by decide) (by decide) (by decide) (by decide)
      (fun w S => by simp only [InI64, demoEnv]; omega)
      (fun w S => by simp only [demoEnv]; omega) 0).1⟩

/-- C7: on a command line with five arguments and valid numbers whose
`alg_name` is not a registry name, `main` exits through
`Benchmark '%s' does not exist!`; its only other call is the dataset load
that precedes the lookup.  The world is unchanged and no call is graph or
buffer work: no graph is created, no buffer allocated, no edge inserted, no
kernel run. -/
theorem unknown_benchmark_is_fatal (env : Env σ δ) (prog name path a3 a4 a5 : String)
    (hname : name ∉ benchmarks.map (fun b => b.name))
    (h3 : 1 ≤ atoll a3) (h4 : 1 ≤ atoll a4) (h5 : 1 ≤ atoll a5) (w : σ) :
    (main env [prog, name, path, a3, a4, a5] w).res = Res.exit ∧
    (main env [prog, name, path, a3, a4, a5] w).world = w ∧
    (main env [prog, name, path, a3, a4, a5] w).trace =
      [Event.dynograph_load_dataset path (atoll a3),
        Event.dynograph_error "Benchmark \x27%s\x27 does not exist!" [FmtArg.str name]] ∧
    (∀ e ∈ (main env [prog, name, path, a3, a4, a5] w).trace,
      e.isGraphOrBufferWork = false ∧ e.isCalloc = false ∧ e.isInsert = false ∧
        e.kernelCall? = none) := by
  rw [main_unregistered env prog name path a3 a4 a5 hname h3 h4 h5 w]
  refine ⟨rfl, rfl, rfl, ?_⟩
  intro e he
  simp only [List.mem_cons, List.mem_singleton, List.not_mem_nil, or_false] at he
  rcases he with rfl | rfl <;> exact ⟨rfl, rfl, rfl, rfl⟩

/-- C7 on the demo collaborators, for the name `"foo"`. -/
theorem unknown_benchmark_is_fatal_witness :
    "foo" ∉ benchmarks.map (fun b => b.name) ∧ 1 ≤ atoll "1" ∧
    (main demoEnv ["dynograph", "foo", "g.txt", "1", "1", "1"] 0).res = Res.exit ∧
    (main demoEnv ["dynograph", "foo", "g.txt", "1", "1", "1"] 0).trace =
      [Event.dynograph_load_dataset "g.txt" (atoll "1"),
        Event.dynograph_error "Benchmark \x27%s\x27 does not exist!" [FmtArg.str "foo"]] :=
  ⟨by decide, by decide,
    (unknown_benchmark_is_fatal demoEnv "dynograph" "foo" "g.txt" "1" "1" "1"
      (by decide) (by decide) (by decide) (by decide) 0).1,
    (unknown_benchmark_is_fatal demoEnv "dynograph" "foo" "g.txt" "1" "1" "1"
      (by decide) (by decide) (by decide) (by decide) 0).2.2.1⟩

end Claims

end Dynograph
